import Mathlib

/-!
Verification development for the dissertation-registration workflow core
(backend models `User`, `RegistrationSession`, `CoordinationRequest`,
`Document` and the session / request / document controllers).

The embedding is shallow: each Sequelize model row becomes a structure,
the database becomes lists of rows, and each controller handler becomes a
pure function from the database to an `OpResult` (the committed database
plus an optional surfaced error).  A Sequelize transaction that rolls back
on failure is embedded as an operation that returns the original database
in its error case; `createRequest` persists the lazy session-status
recompute even when a later guard fails, exactly as the handler does.
Route-level concerns (authentication middleware, HTTP codes, file bytes,
e-mail notification) are outside the embedded core; the express-validator
rules declared in the route files are embedded as the leading validation
step of the corresponding handler.

Dates are embedded as integers (millisecond timestamps), UUIDs as natural
numbers; the storage layer's primary-key uniqueness is embedded as an
explicit insert-time check.
-/

namespace DissReg

/-- `User.role`. -/
inductive Role where
  | student
  | professor
deriving DecidableEq

/-- `CoordinationRequest.status` enum. -/
inductive ReqStatus where
  | pending
  | approved
  | rejected
  | document_pending
  | completed
deriving DecidableEq

/-- `RegistrationSession.status` enum. -/
inductive SessionStatus where
  | upcoming
  | active
  | closed
deriving DecidableEq

/-- `Document.status` enum. -/
inductive DocStatus where
  | pending_review
  | accepted
  | rejected
deriving DecidableEq

/-- Row of the `users` table (workflow-relevant columns). -/
structure User where
  id : Nat
  role : Role
  name : String
  approvedProfessorId : Option Nat
  maxStudents : Nat
  currentStudentCount : Nat
deriving DecidableEq

/-- Row of the `registration_sessions` table. -/
structure RegistrationSession where
  id : Nat
  professorId : Nat
  title : String
  description : Option String
  startDate : Int
  endDate : Int
  status : SessionStatus
  maxSlots : Int
  availableSlots : Int
deriving DecidableEq

/-- Row of the `coordination_requests` table. -/
structure CoordinationRequest where
  id : Nat
  studentId : Nat
  professorId : Nat
  sessionId : Nat
  dissertationTopic : String
  message : Option String
  status : ReqStatus
  rejectionReason : Option String
deriving DecidableEq

/-- Row of the `documents` table (byte storage is external; only metadata). -/
structure Document where
  id : Nat
  requestId : Nat
  uploadedBy : Nat
  uploaderRole : Role
  fileName : String
  status : DocStatus
  rejectionReason : Option String
deriving DecidableEq

/-- The durable store: the four aggregates. -/
structure DB where
  users : List User
  sessions : List RegistrationSession
  requests : List CoordinationRequest
  documents : List Document
deriving DecidableEq

/-- `User.findByPk`. -/
def findUser (db : DB) (uid : Nat) : Option User :=
  db.users.find? (fun u => u.id == uid)

/-- `RegistrationSession.findByPk`. -/
def findSession (db : DB) (sid : Nat) : Option RegistrationSession :=
  db.sessions.find? (fun s => s.id == sid)

/-- `CoordinationRequest.findByPk`. -/
def findReq (db : DB) (rid : Nat) : Option CoordinationRequest :=
  db.requests.find? (fun r => r.id == rid)

/-- `Document.findByPk`. -/
def findDoc (db : DB) (did : Nat) : Option Document :=
  db.documents.find? (fun d => d.id == did)

/-- `User.update`/`User.increment` scoped by primary key. -/
def updateUser (db : DB) (uid : Nat) (f : User → User) : DB :=
  { db with users := db.users.map (fun u => if u.id = uid then f u else u) }

/-- `RegistrationSession` row update scoped by primary key. -/
def updateSessionRow (db : DB) (sid : Nat) (f : RegistrationSession → RegistrationSession) : DB :=
  { db with sessions := db.sessions.map (fun s => if s.id = sid then f s else s) }

/-- `CoordinationRequest` row update scoped by primary key. -/
def updateReqRow (db : DB) (rid : Nat) (f : CoordinationRequest → CoordinationRequest) : DB :=
  { db with requests := db.requests.map (fun r => if r.id = rid then f r else r) }

/-- `Document` row update scoped by primary key. -/
def updateDocRow (db : DB) (did : Nat) (f : Document → Document) : DB :=
  { db with documents := db.documents.map (fun d => if d.id = did then f d else d) }

/-- The pure status mapping of `RegistrationSession.prototype.updateStatus`:
`now < startDate` gives `upcoming`; `startDate ≤ now ≤ endDate` gives
`active`; otherwise `closed`. -/
def recomputeStatus (startDate endDate now : Int) : SessionStatus :=
  if now < startDate then .upcoming
  else if startDate ≤ now ∧ now ≤ endDate then .active
  else .closed

/-- `session.updateStatus()` applied to one row. -/
def refreshRow (s : RegistrationSession) (now : Int) : RegistrationSession :=
  { s with status := recomputeStatus s.startDate s.endDate now }

/-- One session row as transformed by `RegistrationSession.updateAllStatuses`:
first bulk update turns in-window `upcoming` rows `active`; second turns
`upcoming`/`active` rows whose `endDate` has passed `closed`. -/
def bulkStep (s : RegistrationSession) (now : Int) : RegistrationSession :=
  let s1 := if s.status = .upcoming ∧ s.startDate ≤ now ∧ now ≤ s.endDate
            then { s with status := SessionStatus.active } else s
  if (s1.status = .upcoming ∨ s1.status = .active) ∧ s1.endDate < now
  then { s1 with status := SessionStatus.closed } else s1

/-- `RegistrationSession.updateAllStatuses`. -/
def updateAllStatuses (db : DB) (now : Int) : DB :=
  { db with sessions := db.sessions.map (fun s => bulkStep s now) }

/-- The `[Op.or]` condition of `RegistrationSession.prototype.hasOverlap`,
for an existing row with window `[oStart, oEnd]` checked against the
candidate window `[nStart, nEnd]` (all `BETWEEN` bounds inclusive). -/
def overlapCond (oStart oEnd nStart nEnd : Int) : Bool :=
  (decide (nStart ≤ oStart) && decide (oStart ≤ nEnd)) ||
  (decide (nStart ≤ oEnd) && decide (oEnd ≤ nEnd)) ||
  (decide (oStart ≤ nStart) && decide (oEnd ≥ nEnd))

/-- `RegistrationSession.prototype.hasOverlap`: some other session of the
same professor satisfies the overlap condition.  `selfId = none` embeds
the create path, where the `id != this.id` filter excludes no stored row. -/
def hasOverlap (db : DB) (selfId : Option Nat) (profId : Nat) (nStart nEnd : Int) : Bool :=
  db.sessions.any (fun o =>
    o.professorId == profId &&
    (match selfId with | some i => o.id != i | none => true) &&
    overlapCond o.startDate o.endDate nStart nEnd)

/-- Typed surface of the handlers' failure responses. -/
inductive ApiError where
  | validationFailed
  | notFound
  | notAuthorized
  | invalidState
  | alreadyCommitted
  | capacityExceeded
  | studentNotFound
  | professorNotFound
  | offeringNotActive
  | noSlots
  | duplicateRequest
  | overlap
  | invalidWindow
  | hasCommittedRequests
  | reasonRequired
  | pkViolation
deriving DecidableEq

/-- Result of a handler: the committed database, with the surfaced error
when the handler failed.  A transactional handler fails with the original
database (rollback); `createRequest` can fail after having persisted the
lazy status recompute. -/
inductive OpResult where
  | ok (db : DB)
  | err (e : ApiError) (db : DB)
deriving DecidableEq

/-- The database state committed by a handler outcome. -/
def OpResult.state : OpResult → DB
  | .ok db => db
  | .err _ db => db

/-- Whether the handler succeeded. -/
def OpResult.isOk : OpResult → Bool
  | .ok _ => true
  | .err _ _ => false

/-- `createSession` handler (session.controller.js), including the
express-validator rules of session.routes.js (`title` non-empty, provided
`maxSlots` at least 1) and the model validation `endDateAfterStart`. -/
def createSession (db : DB) (now : Int) (caller newId : Nat) (title : String)
    (descr : Option String) (sd ed : Int) (maxSlots : Option Int) : OpResult :=
  if title = "" then .err .validationFailed db
  else if maxSlots.any (fun m => decide (m < 1)) then .err .validationFailed db
  else
    let ms := maxSlots.getD 5
    if hasOverlap db none caller sd ed then .err .overlap db
    else
      let st : SessionStatus :=
        if sd ≤ now ∧ ed ≥ now then .active
        else if sd > now then .upcoming
        else .closed
      if ed ≤ sd then .err .invalidWindow db
      else if db.sessions.any (fun s => s.id == newId) then .err .pkViolation db
      else .ok { db with sessions := db.sessions ++
        [{ id := newId, professorId := caller, title := title, description := descr,
           startDate := sd, endDate := ed, status := st,
           maxSlots := ms, availableSlots := ms }] }

/-- Patch body of the `updateSession` handler.  A field is applied exactly
when the handler's JavaScript truthiness test passes: `title` when provided
non-empty, `description` whenever provided, dates when provided, `maxSlots`
when provided non-zero. -/
structure SessionPatch where
  title : Option String
  description : Option (Option String)
  startDate : Option Int
  endDate : Option Int
  maxSlots : Option Int
deriving DecidableEq

/-- `updateSession` handler (session.controller.js): ownership check, patch
the in-memory row (a `maxSlots` change shifts `availableSlots` by the same
delta, floored at 0), re-check overlap when a date changed, run the model
validations on save, then `updateStatus`. -/
def updateSession (db : DB) (now : Int) (caller sid : Nat) (p : SessionPatch) : OpResult :=
  match findSession db sid with
  | none => .err .notFound db
  | some s =>
    if s.professorId ≠ caller then .err .notAuthorized db
    else
      let s1 : RegistrationSession :=
        { s with
          title := match p.title with
            | some t => if t = "" then s.title else t
            | none => s.title,
          description := p.description.getD s.description,
          startDate := p.startDate.getD s.startDate,
          endDate := p.endDate.getD s.endDate }
      let s2 : RegistrationSession :=
        match p.maxSlots with
        | some m =>
          if m ≠ 0 then
            { s1 with maxSlots := m,
                      availableSlots := max 0 (s1.availableSlots + (m - s1.maxSlots)) }
          else s1
        | none => s1
      if (p.startDate.isSome ∨ p.endDate.isSome) ∧
         hasOverlap db (some sid) s2.professorId s2.startDate s2.endDate = true then
        .err .overlap db
      else if s2.endDate ≤ s2.startDate then .err .invalidWindow db
      else if s2.maxSlots < 1 then .err .validationFailed db
      else .ok (updateSessionRow db sid (fun _ => refreshRow s2 now))

/-- Status values in which a request counts as an in-flight commitment
(`approved`, `document_pending`, `completed`). -/
def committedB : ReqStatus → Bool
  | .approved => true
  | .document_pending => true
  | .completed => true
  | _ => false

/-- `deleteSession` handler (session.controller.js): refuses when any
request of the session is approved / document_pending / completed;
`session.destroy()` cascades over the non-nullable `sessionId` and
`requestId` foreign keys. -/
def deleteSession (db : DB) (caller sid : Nat) : OpResult :=
  match findSession db sid with
  | none => .err .notFound db
  | some s =>
    if s.professorId ≠ caller then .err .notAuthorized db
    else if db.requests.any (fun r => r.sessionId == sid && committedB r.status) then
      .err .hasCommittedRequests db
    else
      .ok { db with
        sessions := db.sessions.filter (fun t => t.id != sid),
        requests := db.requests.filter (fun r => r.sessionId != sid),
        documents := db.documents.filter (fun d =>
          !(db.requests.any (fun r => r.sessionId == sid && r.id == d.requestId))) }

/-- `createRequest` handler (request.controller.js), including the
express-validator rules of the request routes (topic length 10–500,
optional message at most 2000 chars).  The lazy `session.updateStatus()`
is persisted even when a later guard then fails. -/
def createRequest (db : DB) (now : Int) (caller sessionId newReqId : Nat)
    (topic : String) (msg : Option String) : OpResult :=
  if ¬ (10 ≤ topic.length ∧ topic.length ≤ 500) then .err .validationFailed db
  else if msg.any (fun m => decide (2000 < m.length)) then
    .err .validationFailed db
  else match findUser db caller with
  | none => .err .notFound db
  | some u =>
    if u.approvedProfessorId.isSome then .err .alreadyCommitted db
    else match findSession db sessionId with
    | none => .err .notFound db
    | some s =>
      let s1 := refreshRow s now
      let db1 := updateSessionRow db sessionId (fun _ => s1)
      if s1.status ≠ .active then .err .offeringNotActive db1
      else if s1.availableSlots ≤ 0 then .err .noSlots db1
      else if db1.requests.any (fun r => r.studentId == caller && r.sessionId == sessionId) then
        .err .duplicateRequest db1
      else if db1.requests.any (fun r => r.id == newReqId) then .err .pkViolation db1
      else .ok { db1 with requests := db1.requests ++
        [{ id := newReqId, studentId := caller, professorId := s1.professorId,
           sessionId := sessionId, dissertationTopic := topic, message := msg,
           status := .pending, rejectionReason := none }] }

/-- `CoordinationRequest.prototype.canBeApproved`: the student must exist
and have no approved professor; the professor must exist and be under
capacity.  `none` means the request may be approved. -/
def canBeApproved (db : DB) (r : CoordinationRequest) : Option ApiError :=
  match findUser db r.studentId with
  | none => some .studentNotFound
  | some student =>
    if student.approvedProfessorId.isSome then some .alreadyCommitted
    else match findUser db r.professorId with
    | none => some .professorNotFound
    | some professor =>
      if professor.maxStudents ≤ professor.currentStudentCount then some .capacityExceeded
      else none

/-- The system-generated rejection reason of the sibling cascade. -/
def cascadeReason : String := "Student was approved by another professor"

/-- `approveRequest` handler plus `CoordinationRequest.prototype.approve`:
after the ownership / pending / `canBeApproved` guards, one transaction
sets the request `approved`, sets the student's `approvedProfessorId`,
increments the professor's `currentStudentCount`, decrements the session's
`availableSlots`, and rejects every other pending request of the student. -/
def approveRequest (db : DB) (caller rid : Nat) : OpResult :=
  match findReq db rid with
  | none => .err .notFound db
  | some r =>
    if r.professorId ≠ caller then .err .notAuthorized db
    else if r.status ≠ .pending then .err .invalidState db
    else match canBeApproved db r with
    | some e => .err e db
    | none =>
      let db1 := updateReqRow db rid (fun q => { q with status := ReqStatus.approved })
      let db2 := updateUser db1 r.studentId
        (fun u => { u with approvedProfessorId := some r.professorId })
      let db3 := updateUser db2 r.professorId
        (fun u => { u with currentStudentCount := u.currentStudentCount + 1 })
      let db4 := updateSessionRow db3 r.sessionId
        (fun s => { s with availableSlots := s.availableSlots - 1 })
      let db5 := { db4 with requests := db4.requests.map (fun q =>
        if q.studentId = r.studentId ∧ q.id ≠ rid ∧ q.status = ReqStatus.pending
        then { q with status := ReqStatus.rejected, rejectionReason := some cascadeReason }
        else q) }
      .ok db5

/-- The handlers' blank-reason test `reason.trim().length === 0`: the
reason is empty once leading and trailing whitespace is removed, i.e.
every character is whitespace. -/
def isBlank (s : String) : Bool :=
  s.data.all Char.isWhitespace

/-- `rejectRequest` handler plus `CoordinationRequest.prototype.reject`. -/
def rejectRequest (db : DB) (caller rid : Nat) (reason : String) : OpResult :=
  if isBlank reason then .err .reasonRequired db
  else match findReq db rid with
  | none => .err .notFound db
  | some r =>
    if r.professorId ≠ caller then .err .notAuthorized db
    else if r.status ≠ .pending then .err .invalidState db
    else .ok (updateReqRow db rid (fun q =>
      { q with status := ReqStatus.rejected, rejectionReason := some reason }))

/-- `cancelRequest` handler: a student deletes an own still-pending
request; `request.destroy()` cascades over the `requestId` foreign key. -/
def cancelRequest (db : DB) (caller rid : Nat) : OpResult :=
  match findReq db rid with
  | none => .err .notFound db
  | some r =>
    if r.studentId ≠ caller then .err .notAuthorized db
    else if r.status ≠ .pending then .err .invalidState db
    else .ok { db with
      requests := db.requests.filter (fun q => q.id != rid),
      documents := db.documents.filter (fun d => d.requestId != rid) }

/-- `uploadDocument` handler (document.controller.js): a party of the
request uploads; a student only when the request is `approved` (the
request then moves to `document_pending`), a professor only when it is
`document_pending` (no status change). -/
def uploadDocument (db : DB) (caller rid newDocId : Nat) (fileName : String) : OpResult :=
  match findUser db caller with
  | none => .err .notFound db
  | some u =>
    match findReq db rid with
    | none => .err .notFound db
    | some r =>
      let isStudent := r.studentId = caller
      let isProfessor := r.professorId = caller
      if ¬ isStudent ∧ ¬ isProfessor then .err .notAuthorized db
      else if isStudent ∧ r.status ≠ .approved then .err .invalidState db
      else if isProfessor ∧ r.status ≠ .document_pending then .err .invalidState db
      else if db.documents.any (fun d => d.id == newDocId) then .err .pkViolation db
      else
        let db1 := { db with documents := db.documents ++
          [{ id := newDocId, requestId := rid, uploadedBy := caller,
             uploaderRole := u.role, fileName := fileName,
             status := .pending_review, rejectionReason := none }] }
        if isStudent then
          .ok (updateReqRow db1 rid (fun q => { q with status := ReqStatus.document_pending }))
        else .ok db1

/-- `acceptDocument` handler plus `Document.prototype.accept`: only the
request's professor, only a `pending_review` artifact; one transaction
sets the artifact `accepted` and the owning request `completed`.  The
owning request's own status is never inspected. -/
def acceptDocument (db : DB) (caller did : Nat) : OpResult :=
  match findDoc db did with
  | none => .err .notFound db
  | some d =>
    match findReq db d.requestId with
    | none => .err .notFound db
    | some r =>
      if r.professorId ≠ caller then .err .notAuthorized db
      else if d.status ≠ .pending_review then .err .invalidState db
      else
        let db1 := updateDocRow db did (fun x => { x with status := DocStatus.accepted })
        .ok (updateReqRow db1 d.requestId (fun q => { q with status := ReqStatus.completed }))

/-- `rejectDocument` handler plus `Document.prototype.reject`: same guards
as acceptance plus a non-blank reason; one transaction sets the artifact
`rejected` with the reason and reverts the owning request to `approved`. -/
def rejectDocument (db : DB) (caller did : Nat) (reason : String) : OpResult :=
  if isBlank reason then .err .reasonRequired db
  else match findDoc db did with
  | none => .err .notFound db
  | some d =>
    match findReq db d.requestId with
    | none => .err .notFound db
    | some r =>
      if r.professorId ≠ caller then .err .notAuthorized db
      else if d.status ≠ .pending_review then .err .invalidState db
      else
        let db1 := updateDocRow db did (fun x =>
          { x with status := DocStatus.rejected, rejectionReason := some reason })
        .ok (updateReqRow db1 d.requestId (fun q => { q with status := ReqStatus.approved }))

/-- The core operations of the workflow (one constructor per mutating
handler, plus the lazy status recomputes performed by the read paths). -/
inductive Op where
  | createSession (now : Int) (caller newId : Nat) (title : String)
      (descr : Option String) (sd ed : Int) (maxSlots : Option Int)
  | updateSession (now : Int) (caller sid : Nat) (p : SessionPatch)
  | deleteSession (caller sid : Nat)
  | refreshAll (now : Int)
  | refreshOne (now : Int) (sid : Nat)
  | submit (now : Int) (caller sid newReqId : Nat) (topic : String) (msg : Option String)
  | approve (caller rid : Nat)
  | reject (caller rid : Nat) (reason : String)
  | cancel (caller rid : Nat)
  | upload (caller rid newDocId : Nat) (fileName : String)
  | acceptDoc (caller did : Nat)
  | rejectDoc (caller did : Nat) (reason : String)

/-- Dispatch an operation to its handler. -/
def runOp (db : DB) : Op → OpResult
  | .createSession now caller newId title descr sd ed maxSlots =>
      createSession db now caller newId title descr sd ed maxSlots
  | .updateSession now caller sid p => updateSession db now caller sid p
  | .deleteSession caller sid => deleteSession db caller sid
  | .refreshAll now => .ok (updateAllStatuses db now)
  | .refreshOne now sid =>
      match findSession db sid with
      | none => .err .notFound db
      | some s => .ok (updateSessionRow db sid (fun _ => refreshRow s now))
  | .submit now caller sid newReqId topic msg =>
      createRequest db now caller sid newReqId topic msg
  | .approve caller rid => approveRequest db caller rid
  | .reject caller rid reason => rejectRequest db caller rid reason
  | .cancel caller rid => cancelRequest db caller rid
  | .upload caller rid newDocId fileName => uploadDocument db caller rid newDocId fileName
  | .acceptDoc caller did => acceptDocument db caller did
  | .rejectDoc caller did reason => rejectDocument db caller did reason

/-- The database state after an operation (its committed outcome). -/
def applyOp (db : DB) (op : Op) : DB :=
  (runOp db op).state

/-- The database state after a sequence of operations. -/
def runOps (db : DB) (ops : List Op) : DB :=
  ops.foldl applyOp db

/-- Number of in-flight commitments (requests in `approved`,
`document_pending` or `completed`) a given student has in a request list. -/
def committedCount (l : List CoordinationRequest) (sid : Nat) : Nat :=
  l.countP (fun r => r.studentId == sid && committedB r.status)

/-- The cross-entity consistency invariant of the store: professors are
within capacity; each student has at most one in-flight commitment, and
only when the student's `approvedProfessorId` is set; documents hang off
requests that are in-flight; primary keys are unique. -/
def Inv (db : DB) : Prop :=
  (∀ u ∈ db.users, u.currentStudentCount ≤ u.maxStudents) ∧
  (∀ r ∈ db.requests, committedB r.status = true →
     committedCount db.requests r.studentId ≤ 1) ∧
  (∀ r ∈ db.requests, committedB r.status = true →
     ∃ u ∈ db.users, u.id = r.studentId ∧ u.approvedProfessorId.isSome = true) ∧
  (∀ d ∈ db.documents, ∃ r ∈ db.requests, r.id = d.requestId ∧ committedB r.status = true) ∧
  (db.users.map User.id).Nodup ∧
  (db.requests.map CoordinationRequest.id).Nodup

section ListHelpers

variable {α : Type} {β : Type}

/-- A successful `find?` splits the list at the found element, everything
before it failing the predicate. -/
theorem find?_decomp {p : α → Bool} {l : List α} {a : α}
    (h : l.find? p = some a) :
    ∃ l1 l2, l = l1 ++ a :: l2 ∧ ∀ x ∈ l1, p x = false := by
  induction l with
  | nil => simp at h
  | cons b t ih =>
    by_cases hb : p b = true
    · rw [List.find?_cons_of_pos _ hb] at h
      obtain rfl : b = a := by simpa using h
      exact ⟨[], t, rfl, by simp⟩
    · rw [List.find?_cons_of_neg _ hb] at h
      obtain ⟨l1, l2, hl, hfail⟩ := ih h
      refine ⟨b :: l1, l2, by simp [hl], ?_⟩
      intro x hx
      rcases List.mem_cons.mp hx with hx | hx
      · subst hx; simpa using hb
      · exact hfail x hx

/-- Pointwise-equal predicates across a map leave `countP` unchanged. -/
theorem countP_map_eq (f : α → α) (p : α → Bool) (l : List α)
    (h : ∀ x ∈ l, p (f x) = p x) : (l.map f).countP p = l.countP p := by
  induction l with
  | nil => simp
  | cons b t ih =>
    simp only [List.map_cons, List.countP_cons]
    rw [ih (fun x hx => h x (List.mem_cons_of_mem b hx)), h b (List.mem_cons_self b t)]

/-- Mapping with a function that preserves a projection preserves the
projected list. -/
theorem map_pres (f : α → α) (g : α → β) (l : List α)
    (h : ∀ x, g (f x) = g x) : (l.map f).map g = l.map g := by
  rw [List.map_map]
  exact List.map_congr_left (fun a _ => h a)

/-- `find?` by a projection commutes with mapping a projection-preserving
function. -/
theorem find?_map_pres (f : α → α) (p : α → Bool) (l : List α)
    (h : ∀ x, p (f x) = p x) : (l.map f).find? p = (l.find? p).map f := by
  induction l with
  | nil => simp
  | cons b t ih =>
    by_cases hb : p b = true
    · rw [List.map_cons, List.find?_cons_of_pos _ ((h b).trans hb),
        List.find?_cons_of_pos _ hb]
      rfl
    · rw [List.map_cons, List.find?_cons_of_neg, List.find?_cons_of_neg _ hb, ih]
      rw [h b]; exact hb

end ListHelpers

section InvPreservation

/-- The invariant does not mention sessions, so any operation that leaves
users, requests and documents untouched preserves it. -/
theorem inv_of_parts {db db2 : DB}
    (hu : db2.users = db.users) (hr : db2.requests = db.requests)
    (hd : db2.documents = db.documents) (h : Inv db) : Inv db2 := by
  obtain ⟨u2, s2, r2, d2⟩ := db2
  dsimp at hu hr hd
  subst hu; subst hr; subst hd
  exact h

/-- Removing rows preserves the invariant, provided every in-flight
request survives the removal. -/
theorem inv_filter {db : DB} {ss : List RegistrationSession}
    (pr : CoordinationRequest → Bool) (pd : Document → Bool) (h : Inv db)
    (hkeep : ∀ r ∈ db.requests, committedB r.status = true → pr r = true) :
    Inv { users := db.users, sessions := ss,
          requests := db.requests.filter pr,
          documents := db.documents.filter pd } := by
  obtain ⟨h1, h2, h3, h4, h5, h6⟩ := h
  refine ⟨h1, ?_, ?_, ?_, h5, ?_⟩
  · intro r hr hcom
    obtain ⟨hm, _⟩ := List.mem_filter.mp hr
    calc committedCount (db.requests.filter pr) r.studentId
        ≤ committedCount db.requests r.studentId :=
          (List.filter_sublist db.requests).countP_le _
      _ ≤ 1 := h2 r hm hcom
  · intro r hr hcom
    exact h3 r (List.mem_filter.mp hr).1 hcom
  · intro d hd
    obtain ⟨r, hrm, hrid, hrcom⟩ := h4 d (List.mem_filter.mp hd).1
    exact ⟨r, List.mem_filter.mpr ⟨hrm, hkeep r hrm hrcom⟩, hrid, hrcom⟩
  · exact ((List.filter_sublist db.requests).map _).nodup h6

/-- Appending a fresh `pending` request preserves the invariant. -/
theorem inv_append_pending {db : DB} {ss : List RegistrationSession}
    (nr : CoordinationRequest) (h : Inv db) (hst : nr.status = .pending)
    (hfresh : ∀ r ∈ db.requests, r.id ≠ nr.id) :
    Inv { users := db.users, sessions := ss,
          requests := db.requests ++ [nr], documents := db.documents } := by
  obtain ⟨h1, h2, h3, h4, h5, h6⟩ := h
  have hcount : ∀ sid, committedCount (db.requests ++ [nr]) sid =
      committedCount db.requests sid := by
    intro sid
    unfold committedCount
    rw [List.countP_append]
    simp [hst, committedB]
  refine ⟨h1, ?_, ?_, ?_, h5, ?_⟩
  · intro r hr hcom
    rw [hcount]
    rcases List.mem_append.mp hr with hm | hm
    · exact h2 r hm hcom
    · obtain rfl : r = nr := by simpa using hm
      rw [hst] at hcom; simp [committedB] at hcom
  · intro r hr hcom
    rcases List.mem_append.mp hr with hm | hm
    · exact h3 r hm hcom
    · obtain rfl : r = nr := by simpa using hm
      rw [hst] at hcom; simp [committedB] at hcom
  · intro d hd
    obtain ⟨r, hrm, hrid, hrcom⟩ := h4 d hd
    exact ⟨r, List.mem_append.mpr (Or.inl hrm), hrid, hrcom⟩
  · rw [List.map_append, List.nodup_append]
    refine ⟨h6, by simp, ?_⟩
    intro a ha hb
    obtain ⟨r, hrm, rfl⟩ := List.mem_map.mp ha
    simp only [List.map_cons, List.map_nil, List.mem_singleton] at hb
    exact hfresh r hrm hb

/-- Updating the single row with a given id in a way that preserves the
id, student and in-flight-ness of the row preserves the invariant; the
document list may be replaced by any list that still only references
in-flight requests of the old store. -/
theorem inv_update_row {db : DB} {ss : List RegistrationSession} {rid : Nat}
    {r0 : CoordinationRequest} (h : Inv db) (hfind : findReq db rid = some r0)
    (g : CoordinationRequest → CoordinationRequest)
    (hg_id : ∀ q, (g q).id = q.id) (hg_sid : ∀ q, (g q).studentId = q.studentId)
    (hg_com : committedB (g r0).status = committedB r0.status)
    {ds : List Document}
    (hds : ∀ d ∈ ds, ∃ r ∈ db.requests, r.id = d.requestId ∧ committedB r.status = true) :
    Inv { users := db.users, sessions := ss,
          requests := db.requests.map (fun q => if q.id = rid then g q else q),
          documents := ds } := by
  obtain ⟨h1, h2, h3, h4, h5, h6⟩ := h
  have hr0id : r0.id = rid := by simpa using List.find?_some hfind
  have hr0mem : r0 ∈ db.requests := List.mem_of_find?_eq_some hfind
  have huniq : ∀ q ∈ db.requests, q.id = rid → q = r0 := by
    intro q hq hqid
    exact List.inj_on_of_nodup_map h6 hq hr0mem (hqid.trans hr0id.symm)
  set f : CoordinationRequest → CoordinationRequest :=
    fun q => if q.id = rid then g q else q with hf
  have hf_id : ∀ q, (f q).id = q.id := by
    intro q
    by_cases hq : q.id = rid <;> simp [hf, hq, hg_id]
  have hf_sid : ∀ q ∈ db.requests, (f q).studentId = q.studentId := by
    intro q _
    by_cases hq : q.id = rid <;> simp [hf, hq, hg_sid]
  have hf_com : ∀ q ∈ db.requests, committedB (f q).status = committedB q.status := by
    intro q hq
    by_cases hqid : q.id = rid
    · obtain rfl := huniq q hq hqid
      simp [hf, hqid, hg_com]
    · simp [hf, hqid]
  have hcount : ∀ sid, committedCount (db.requests.map f) sid =
      committedCount db.requests sid := by
    intro sid
    refine countP_map_eq f _ db.requests ?_
    intro q hq
    have hs := hf_sid q hq
    have hc := hf_com q hq
    simp [hs, hc]
  have hmem_pres : ∀ q ∈ db.requests, committedB q.status = true → f q = q ∨ q = r0 := by
    intro q hq _
    by_cases hqid : q.id = rid
    · exact Or.inr (huniq q hq hqid)
    · exact Or.inl (by simp [hf, hqid])
  refine ⟨h1, ?_, ?_, ?_, h5, ?_⟩
  · intro r hr hcom
    obtain ⟨q, hq, rfl⟩ := List.mem_map.mp hr
    rw [hcount]
    have hqcom : committedB q.status = true := (hf_com q hq).symm.trans hcom
    rw [hf_sid q hq]
    exact h2 q hq hqcom
  · intro r hr hcom
    obtain ⟨q, hq, rfl⟩ := List.mem_map.mp hr
    have hqcom : committedB q.status = true := (hf_com q hq).symm.trans hcom
    obtain ⟨u, hum, huid, husome⟩ := h3 q hq hqcom
    exact ⟨u, hum, huid.trans (hf_sid q hq).symm, husome⟩
  · intro d hd
    obtain ⟨r, hrm, hrid2, hrcom⟩ := hds d hd
    refine ⟨f r, List.mem_map.mpr ⟨r, hrm, rfl⟩, (hf_id r).trans hrid2, ?_⟩
    rw [hf_com r hrm]; exact hrcom
  · rw [map_pres f CoordinationRequest.id db.requests hf_id]
    exact h6

end InvPreservation

theorem countP_congr_mem {α : Type} (p q : α → Bool) (l : List α)
    (h : ∀ x ∈ l, p x = q x) : l.countP p = l.countP q :=
  List.countP_congr (fun x hx => by rw [h x hx])

theorem countP_key_one {α : Type} (key : α → Nat) (k : Nat) (p : α → Bool) (l : List α)
    (hp : ∀ x ∈ l, p x = (key x == k)) (hnodup : (l.map key).Nodup)
    {a : α} (ha : a ∈ l) (hak : key a = k) : l.countP p = 1 := by
  rw [countP_congr_mem p (fun x => key x == k) l hp]
  have h1 : l.countP (fun x => key x == k) = (l.map key).count k := by
    rw [List.count_eq_countP, List.countP_map]
    rfl
  rw [h1]
  exact List.count_eq_one_of_mem hnodup (List.mem_map.mpr ⟨a, ha, hak⟩)

theorem nodup_map_pres {α β : Type} (f : α → α) (g : α → β) (l : List α)
    (h : ∀ x, g (f x) = g x) (hn : (l.map g).Nodup) : ((l.map f).map g).Nodup := by
  rw [map_pres f g l h]
  exact hn

theorem inv_approve (db : DB) (caller rid : Nat) (h : Inv db) :
    Inv (approveRequest db caller rid).state := by
  unfold approveRequest
  cases hfind : findReq db rid with
  | none => exact h
  | some r =>
    dsimp only
    by_cases hprof : r.professorId ≠ caller
    · rw [if_pos hprof]; exact h
    rw [if_neg hprof]
    by_cases hst : r.status ≠ ReqStatus.pending
    · rw [if_pos hst]; exact h
    rw [if_neg hst]
    have hpend : r.status = ReqStatus.pending := not_not.mp hst
    cases hcan : canBeApproved db r with
    | some e => exact h
    | none =>
      dsimp only [OpResult.state, updateReqRow, updateUser, updateSessionRow]
      have hcaller : r.professorId = caller := not_not.mp hprof
      obtain ⟨h1, h2, h3, h4, h5, h6⟩ := h
      have hguard : ∃ su, findUser db r.studentId = some su ∧
          su.approvedProfessorId.isSome = false ∧
          ∃ pu, findUser db r.professorId = some pu ∧
            pu.currentStudentCount < pu.maxStudents := by
        unfold canBeApproved at hcan
        cases hsu : findUser db r.studentId with
        | none => rw [hsu] at hcan; cases hcan
        | some su =>
          rw [hsu] at hcan
          dsimp only at hcan
          by_cases hss : su.approvedProfessorId.isSome = true
          · rw [if_pos hss] at hcan; cases hcan
          · rw [if_neg hss] at hcan
            cases hpu : findUser db r.professorId with
            | none => rw [hpu] at hcan; cases hcan
            | some pu =>
              rw [hpu] at hcan
              dsimp only at hcan
              by_cases hcap : pu.maxStudents ≤ pu.currentStudentCount
              · rw [if_pos hcap] at hcan; cases hcan
              · rw [if_neg hcap] at hcan
                exact ⟨su, rfl, Bool.eq_false_iff.mpr hss, pu, rfl, Nat.lt_of_not_le hcap⟩
      obtain ⟨su, hsu, hsu_none, pu, hpu, hpu_cap⟩ := hguard
      have hrid : r.id = rid := by simpa using List.find?_some hfind
      have hrmem : r ∈ db.requests := List.mem_of_find?_eq_some hfind
      have hsu_mem : su ∈ db.users := List.mem_of_find?_eq_some hsu
      have hsu_id : su.id = r.studentId := by simpa using List.find?_some hsu
      have hpu_mem : pu ∈ db.users := List.mem_of_find?_eq_some hpu
      have hpu_id : pu.id = r.professorId := by simpa using List.find?_some hpu
      have req_uniq : ∀ q ∈ db.requests, q.id = rid → q = r := by
        intro q hq hqid
        exact List.inj_on_of_nodup_map h6 hq hrmem (by rw [hqid, hrid])
      have user_uniq : ∀ u ∈ db.users, ∀ v ∈ db.users, u.id = v.id → u = v := by
        intro u hu v hv huv
        exact List.inj_on_of_nodup_map h5 hu hv huv
      have hnone : ∀ q ∈ db.requests, q.studentId = r.studentId → committedB q.status = false := by
        intro q hq hsid
        cases hcb : committedB q.status with
        | false => rfl
        | true =>
          exfalso
          obtain ⟨u, hum, huid, husome⟩ := h3 q hq hcb
          have hu_eq : u = su := user_uniq u hum su hsu_mem (by rw [huid, hsid, hsu_id])
          rw [hu_eq, hsu_none] at husome
          cases husome
      unfold Inv
      dsimp only
      refine ⟨?_, ?_, ?_, ?_, ?_, ?_⟩
      · -- professors stay within capacity
        intro u hu
        obtain ⟨v1, hv1m, rfl⟩ := List.mem_map.mp hu
        obtain ⟨v, hvm, rfl⟩ := List.mem_map.mp hv1m
        have base := h1 v hvm
        by_cases hB : v.id = r.professorId
        · obtain rfl : v = pu := user_uniq v hvm pu hpu_mem (by rw [hB, hpu_id])
          by_cases hA : v.id = r.studentId
          · rw [if_pos hA]
            dsimp only
            rw [if_pos hB]
            dsimp only
            omega
          · rw [if_neg hA, if_pos hB]
            dsimp only
            omega
        · by_cases hA : v.id = r.studentId
          · rw [if_pos hA]
            dsimp only
            rw [if_neg hB]
            exact base
          · rw [if_neg hA, if_neg hB]
            exact base
      · -- at most one in-flight request per student
        intro r5 hr5 hcom5
        obtain ⟨q1, hq1m, rfl⟩ := List.mem_map.mp hr5
        obtain ⟨q, hqm, rfl⟩ := List.mem_map.mp hq1m
        by_cases hqid : q.id = rid
        · obtain rfl : r = q := (req_uniq q hqm hqid).symm
          rw [if_pos hqid] at hcom5 ⊢
          rw [if_neg (by simp [hrid])] at hcom5 ⊢
          dsimp only at hcom5 ⊢
          unfold committedCount
          rw [List.countP_map, List.countP_map]
          refine le_of_eq (countP_key_one CoordinationRequest.id rid _ _ ?_ h6 hrmem hrid)
          intro x hx
          simp only [Function.comp_apply]
          by_cases hxid : x.id = rid
          · obtain rfl : r = x := (req_uniq x hx hxid).symm
            rw [if_pos hxid, if_neg (by simp [hrid])]
            simp [hrid, committedB]
          · rw [if_neg hxid]
            by_cases hsid : x.studentId = r.studentId
            · by_cases hpd : x.status = ReqStatus.pending
              · rw [if_pos ⟨hsid, hxid, hpd⟩]
                simp [hxid, committedB]
              · rw [if_neg (by simp [hpd])]
                have hzero := hnone x hx hsid
                simp [hxid, hzero]
            · rw [if_neg (by simp [hsid])]
              rw [Bool.eq_iff_iff]
              simp [hxid, hsid]
        · rw [if_neg hqid] at hcom5 ⊢
          by_cases hcas : q.studentId = r.studentId ∧ q.id ≠ rid ∧ q.status = ReqStatus.pending
          · rw [if_pos hcas] at hcom5
            simp [committedB] at hcom5
          · rw [if_neg hcas] at hcom5 ⊢
            have hqsid : q.studentId ≠ r.studentId := by
              intro hqs
              have hzero := hnone q hqm hqs
              rw [hzero] at hcom5
              cases hcom5
            have hold : committedCount db.requests q.studentId ≤ 1 := h2 q hqm hcom5
            unfold committedCount at hold ⊢
            rw [List.countP_map, List.countP_map]
            refine (countP_congr_mem _
              (fun t => t.studentId == q.studentId && committedB t.status) _ ?_).trans_le hold
            intro x hx
            simp only [Function.comp_apply]
            by_cases hxid : x.id = rid
            · obtain rfl : r = x := (req_uniq x hx hxid).symm
              rw [if_pos hxid, if_neg (by simp [hrid])]
              simp [committedB, hpend, Ne.symm hqsid]
            · rw [if_neg hxid]
              by_cases hx2 : x.studentId = r.studentId ∧ x.id ≠ rid ∧ x.status = ReqStatus.pending
              · rw [if_pos hx2]
                simp [committedB, hx2.2.2]
              · rw [if_neg hx2]
      · -- an in-flight request implies the student is marked accepted
        intro r5 hr5 hcom5
        obtain ⟨q1, hq1m, rfl⟩ := List.mem_map.mp hr5
        obtain ⟨q, hqm, rfl⟩ := List.mem_map.mp hq1m
        by_cases hqid : q.id = rid
        · obtain rfl : r = q := (req_uniq q hqm hqid).symm
          rw [if_pos hqid] at hcom5 ⊢
          rw [if_neg (by simp [hrid])] at hcom5 ⊢
          dsimp only at hcom5 ⊢
          refine ⟨_, List.mem_map.mpr ⟨_, List.mem_map.mpr ⟨su, hsu_mem, rfl⟩, rfl⟩, ?_, ?_⟩
          · dsimp only
            rw [if_pos hsu_id]
            dsimp only
            by_cases hb : su.id = r.professorId
            · rw [if_pos hb]
              exact hsu_id
            · rw [if_neg hb]
              exact hsu_id
          · dsimp only
            rw [if_pos hsu_id]
            dsimp only
            by_cases hb : su.id = r.professorId
            · rw [if_pos hb]
              rfl
            · rw [if_neg hb]
              rfl
        · rw [if_neg hqid] at hcom5 ⊢
          by_cases hcas : q.studentId = r.studentId ∧ q.id ≠ rid ∧ q.status = ReqStatus.pending
          · rw [if_pos hcas] at hcom5
            simp [committedB] at hcom5
          · rw [if_neg hcas] at hcom5 ⊢
            obtain ⟨u, hum, huid, husome⟩ := h3 q hqm hcom5
            refine ⟨_, List.mem_map.mpr ⟨_, List.mem_map.mpr ⟨u, hum, rfl⟩, rfl⟩, ?_, ?_⟩
            · dsimp only
              by_cases hA : u.id = r.studentId
              · rw [if_pos hA]
                dsimp only
                by_cases hb : u.id = r.professorId
                · rw [if_pos hb]
                  exact huid
                · rw [if_neg hb]
                  exact huid
              · rw [if_neg hA]
                by_cases hb : u.id = r.professorId
                · rw [if_pos hb]
                  exact huid
                · rw [if_neg hb]
                  exact huid
            · dsimp only
              by_cases hA : u.id = r.studentId
              · rw [if_pos hA]
                dsimp only
                by_cases hb : u.id = r.professorId
                · rw [if_pos hb]
                  rfl
                · rw [if_neg hb]
                  rfl
              · rw [if_neg hA]
                by_cases hb : u.id = r.professorId
                · rw [if_pos hb]
                  exact husome
                · rw [if_neg hb]
                  exact husome
      · -- every document still hangs off an in-flight request
        intro d hd
        obtain ⟨q, hqm, hqid2, hqcom⟩ := h4 d hd
        have hqne : q.id ≠ rid := by
          intro hq
          obtain rfl : q = r := req_uniq q hqm hq
          rw [hpend] at hqcom
          simp [committedB] at hqcom
        have hqnpend : q.status ≠ ReqStatus.pending := by
          intro hq
          rw [hq] at hqcom
          simp [committedB] at hqcom
        refine ⟨_, List.mem_map.mpr ⟨_, List.mem_map.mpr ⟨q, hqm, rfl⟩, rfl⟩, ?_, ?_⟩
        · dsimp only
          rw [if_neg hqne, if_neg (by simp [hqnpend])]
          exact hqid2
        · dsimp only
          rw [if_neg hqne, if_neg (by simp [hqnpend])]
          exact hqcom
      · -- user ids stay unique
        refine nodup_map_pres _ _ _ ?_ (nodup_map_pres _ _ _ ?_ h5)
        · intro u
          dsimp only
          by_cases hb : u.id = r.professorId
          · rw [if_pos hb]
          · rw [if_neg hb]
        · intro u
          dsimp only
          by_cases hb : u.id = r.studentId
          · rw [if_pos hb]
          · rw [if_neg hb]
      · -- request ids stay unique
        refine nodup_map_pres _ _ _ ?_ (nodup_map_pres _ _ _ ?_ h6)
        · intro q
          dsimp only
          by_cases hb : q.studentId = r.studentId ∧ q.id ≠ rid ∧ q.status = ReqStatus.pending
          · rw [if_pos hb]
          · rw [if_neg hb]
        · intro q
          dsimp only
          by_cases hb : q.id = rid
          · rw [if_pos hb]
          · rw [if_neg hb]



theorem inv_set_docs {db : DB} {ss : List RegistrationSession} {ds : List Document}
    (h : Inv db)
    (hds : ∀ d ∈ ds, ∃ r ∈ db.requests, r.id = d.requestId ∧ committedB r.status = true) :
    Inv { users := db.users, sessions := ss, requests := db.requests, documents := ds } := by
  obtain ⟨h1, h2, h3, h4, h5, h6⟩ := h
  exact ⟨h1, h2, h3, hds, h5, h6⟩

theorem inv_createSession (db : DB) (now : Int) (caller newId : Nat) (title : String)
    (descr : Option String) (sd ed : Int) (maxSlots : Option Int) (h : Inv db) :
    Inv (createSession db now caller newId title descr sd ed maxSlots).state := by
  unfold createSession
  repeat' split
  all_goals exact h

theorem inv_updateSession (db : DB) (now : Int) (caller sid : Nat) (p : SessionPatch)
    (h : Inv db) : Inv (updateSession db now caller sid p).state := by
  unfold updateSession
  dsimp only
  repeat' split
  all_goals exact h

theorem inv_deleteSession (db : DB) (caller sid : Nat) (h : Inv db) :
    Inv (deleteSession db caller sid).state := by
  unfold deleteSession
  cases hfind : findSession db sid with
  | none => exact h
  | some s =>
    dsimp only
    by_cases hown : s.professorId ≠ caller
    · rw [if_pos hown]; exact h
    rw [if_neg hown]
    by_cases hcom : db.requests.any (fun r => r.sessionId == sid && committedB r.status) = true
    · rw [if_pos hcom]; exact h
    rw [if_neg hcom]
    refine inv_filter _ _ h ?_
    intro r hr hrcom
    simp only [List.any_eq_true, not_exists] at hcom
    by_cases hrs : r.sessionId = sid
    · exfalso
      exact hcom r ⟨hr, by simp [hrs, hrcom]⟩
    · simp [hrs]

theorem inv_refreshOne (db : DB) (now : Int) (sid : Nat) (h : Inv db) :
    Inv (runOp db (Op.refreshOne now sid)).state := by
  unfold runOp
  dsimp only
  cases hfind : findSession db sid with
  | none => exact h
  | some s => exact inv_of_parts rfl rfl rfl h

theorem inv_createRequest (db : DB) (now : Int) (caller sid nid : Nat) (topic : String)
    (msg : Option String) (h : Inv db) :
    Inv (createRequest db now caller sid nid topic msg).state := by
  unfold createRequest
  split
  · exact h
  split
  · exact h
  cases hu : findUser db caller with
  | none => exact h
  | some u =>
    dsimp only
    split
    · exact h
    cases hs : findSession db sid with
    | none => exact h
    | some s =>
      dsimp only
      split
      · exact inv_of_parts rfl rfl rfl h
      split
      · exact inv_of_parts rfl rfl rfl h
      split
      · exact inv_of_parts rfl rfl rfl h
      by_cases hpk : ((updateSessionRow db sid (fun _ => refreshRow s now)).requests.any
          (fun r => r.id == nid)) = true
      · rw [if_pos hpk]
        exact inv_of_parts rfl rfl rfl h
      · rw [if_neg hpk]
        refine inv_append_pending _ h rfl ?_
        intro r hr
        simp only [updateSessionRow, List.any_eq_true, not_exists] at hpk
        intro hid
        exact hpk r ⟨hr, by simp [hid]⟩

theorem inv_reject (db : DB) (caller rid : Nat) (reason : String) (h : Inv db) :
    Inv (rejectRequest db caller rid reason).state := by
  unfold rejectRequest
  split
  · exact h
  cases hfind : findReq db rid with
  | none => exact h
  | some r =>
    dsimp only
    split
    · exact h
    split
    · exact h
    next hst =>
      have hpend : r.status = ReqStatus.pending := not_not.mp hst
      dsimp only [OpResult.state, updateReqRow]
      refine inv_update_row h hfind
        (fun q => { q with status := ReqStatus.rejected, rejectionReason := some reason })
        (fun q => rfl) (fun q => rfl) ?_ ?_
      · simp [hpend, committedB]
      · exact h.2.2.2.1

theorem inv_cancel (db : DB) (caller rid : Nat) (h : Inv db) :
    Inv (cancelRequest db caller rid).state := by
  unfold cancelRequest
  cases hfind : findReq db rid with
  | none => exact h
  | some r =>
    dsimp only
    split
    · exact h
    split
    · exact h
    next hst =>
      have hpend : r.status = ReqStatus.pending := not_not.mp hst
      have hrid : r.id = rid := by simpa using List.find?_some hfind
      have hrmem : r ∈ db.requests := List.mem_of_find?_eq_some hfind
      refine inv_filter _ _ h ?_
      intro q hq hqcom
      by_cases hqid : q.id = rid
      · exfalso
        have hqr : q = r := List.inj_on_of_nodup_map h.2.2.2.2.2 hq hrmem (by rw [hqid, hrid])
        rw [hqr, hpend] at hqcom
        simp [committedB] at hqcom
      · simp [hqid]

theorem inv_upload (db : DB) (caller rid nid : Nat) (fileName : String) (h : Inv db) :
    Inv (uploadDocument db caller rid nid fileName).state := by
  unfold uploadDocument
  cases hu : findUser db caller with
  | none => exact h
  | some u =>
    dsimp only
    cases hfind : findReq db rid with
    | none => exact h
    | some r =>
      dsimp only
      split
      · exact h
      next hauth =>
      split
      · exact h
      next hstu =>
      split
      · exact h
      next hprofguard =>
      split
      · exact h
      next hpk =>
      have hrid : r.id = rid := by simpa using List.find?_some hfind
      have hrmem : r ∈ db.requests := List.mem_of_find?_eq_some hfind
      by_cases hisStu : r.studentId = caller
      · rw [if_pos hisStu]
        have happr : r.status = ReqStatus.approved := by
          by_contra hne
          exact hstu ⟨hisStu, hne⟩
        dsimp only [OpResult.state, updateReqRow]
        refine inv_update_row h hfind
          (fun q => { q with status := ReqStatus.document_pending })
          (fun q => rfl) (fun q => rfl) ?_ ?_
        · simp [happr, committedB]
        · intro d hd
          rcases List.mem_append.mp hd with hdm | hdm
          · exact h.2.2.2.1 d hdm
          · obtain rfl : d = _ := by simpa using hdm
            refine ⟨r, hrmem, ?_, by simp [happr, committedB]⟩
            simpa using hrid
      · rw [if_neg hisStu]
        have hisProf : r.professorId = caller := by
          rcases not_and_or.mp hauth with hc | hc
          · exact absurd (not_not.mp hc) hisStu
          · exact not_not.mp hc
        have hdp : r.status = ReqStatus.document_pending := by
          by_contra hne
          exact hprofguard ⟨hisProf, hne⟩
        refine inv_set_docs h ?_
        intro d hd
        rcases List.mem_append.mp hd with hdm | hdm
        · exact h.2.2.2.1 d hdm
        · obtain rfl : d = _ := by simpa using hdm
          refine ⟨r, hrmem, ?_, by simp [hdp, committedB]⟩
          simpa using hrid

theorem inv_acceptDoc (db : DB) (caller did : Nat) (h : Inv db) :
    Inv (acceptDocument db caller did).state := by
  unfold acceptDocument
  cases hd : findDoc db did with
  | none => exact h
  | some d =>
    dsimp only
    cases hr : findReq db d.requestId with
    | none => exact h
    | some r =>
      dsimp only
      split
      · exact h
      split
      · exact h
      have hrid : r.id = d.requestId := by simpa using List.find?_some hr
      have hrmem : r ∈ db.requests := List.mem_of_find?_eq_some hr
      have hdmem : d ∈ db.documents := List.mem_of_find?_eq_some hd
      obtain ⟨rx, hrxm, hrxid, hrxcom⟩ := h.2.2.2.1 d hdmem
      have hrx : r = rx :=
        (List.inj_on_of_nodup_map h.2.2.2.2.2 hrxm hrmem (by rw [hrxid, hrid])).symm
      dsimp only [OpResult.state, updateReqRow, updateDocRow]
      refine inv_update_row h hr
        (fun q => { q with status := ReqStatus.completed })
        (fun q => rfl) (fun q => rfl) ?_ ?_
      · rw [hrx, hrxcom]; rfl
      · intro d2 hd2
        obtain ⟨d0, hd0m, rfl⟩ := List.mem_map.mp hd2
        obtain ⟨r2, hr2m, hr2id, hr2com⟩ := h.2.2.2.1 d0 hd0m
        refine ⟨r2, hr2m, ?_, hr2com⟩
        by_cases hdid : d0.id = did <;> simp [hdid, hr2id]

theorem inv_rejectDoc (db : DB) (caller did : Nat) (reason : String) (h : Inv db) :
    Inv (rejectDocument db caller did reason).state := by
  unfold rejectDocument
  split
  · exact h
  cases hd : findDoc db did with
  | none => exact h
  | some d =>
    dsimp only
    cases hr : findReq db d.requestId with
    | none => exact h
    | some r =>
      dsimp only
      split
      · exact h
      split
      · exact h
      have hrid : r.id = d.requestId := by simpa using List.find?_some hr
      have hrmem : r ∈ db.requests := List.mem_of_find?_eq_some hr
      have hdmem : d ∈ db.documents := List.mem_of_find?_eq_some hd
      obtain ⟨rx, hrxm, hrxid, hrxcom⟩ := h.2.2.2.1 d hdmem
      have hrx : r = rx :=
        (List.inj_on_of_nodup_map h.2.2.2.2.2 hrxm hrmem (by rw [hrxid, hrid])).symm
      dsimp only [OpResult.state, updateReqRow, updateDocRow]
      refine inv_update_row h hr
        (fun q => { q with status := ReqStatus.approved })
        (fun q => rfl) (fun q => rfl) ?_ ?_
      · rw [hrx, hrxcom]; rfl
      · intro d2 hd2
        obtain ⟨d0, hd0m, rfl⟩ := List.mem_map.mp hd2
        obtain ⟨r2, hr2m, hr2id, hr2com⟩ := h.2.2.2.1 d0 hd0m
        refine ⟨r2, hr2m, ?_, hr2com⟩
        by_cases hdid : d0.id = did <;> simp [hdid, hr2id]

theorem inv_applyOp (db : DB) (op : Op) (h : Inv db) : Inv (applyOp db op) := by
  cases op with
  | createSession now caller newId title descr sd ed maxSlots =>
    exact inv_createSession db now caller newId title descr sd ed maxSlots h
  | updateSession now caller sid p => exact inv_updateSession db now caller sid p h
  | deleteSession caller sid => exact inv_deleteSession db caller sid h
  | refreshAll now => exact inv_of_parts rfl rfl rfl h
  | refreshOne now sid => exact inv_refreshOne db now sid h
  | submit now caller sid nid topic msg => exact inv_createRequest db now caller sid nid topic msg h
  | approve caller rid => exact inv_approve db caller rid h
  | reject caller rid reason => exact inv_reject db caller rid reason h
  | cancel caller rid => exact inv_cancel db caller rid h
  | upload caller rid nid fileName => exact inv_upload db caller rid nid fileName h
  | acceptDoc caller did => exact inv_acceptDoc db caller did h
  | rejectDoc caller did reason => exact inv_rejectDoc db caller did reason h

theorem inv_runOps (db : DB) (ops : List Op) (h : Inv db) : Inv (runOps db ops) := by
  induction ops generalizing db with
  | nil => exact h
  | cons op rest ih => exact ih (applyOp db op) (inv_applyOp db op h)

instance (db : DB) : Decidable (Inv db) := by
  unfold Inv
  infer_instance

/-- Example actors: a professor with capacity 5 and two students. -/
def exP1 : User :=
  { id := 1, role := .professor, name := "Prof", approvedProfessorId := none,
    maxStudents := 5, currentStudentCount := 0 }

/-- First example student. -/
def exA2 : User :=
  { id := 2, role := .student, name := "Ana", approvedProfessorId := none,
    maxStudents := 5, currentStudentCount := 0 }

/-- Second example student. -/
def exB3 : User :=
  { id := 3, role := .student, name := "Bob", approvedProfessorId := none,
    maxStudents := 5, currentStudentCount := 0 }

/-- Initial store: three actors, nothing else. -/
def exDb0 : DB := { users := [exP1, exA2, exB3], sessions := [], requests := [], documents := [] }

/-- A one-slot session, two submissions racing for it, both approved. -/
def exOpsNeg : List Op :=
  [ .createSession 50 1 20 "Thesis window" none 0 100 (some 1)
  , .submit 50 2 20 10 "topic long enough" none
  , .submit 50 3 20 11 "topic long enough" none
  , .approve 1 10
  , .approve 1 11 ]

/-- C2 (code bug): from a well-formed initial store, a one-slot session
accepts two pending requests and `approve` decrements `availableSlots`
unconditionally, so the second (successful!) approval leaves
`availableSlots = -1`, violating `0 ≤ availableSlots`. -/
theorem approve_drives_slots_negative :
    Inv exDb0 ∧
    (runOp (runOps exDb0 (exOpsNeg.take 4)) (Op.approve 1 11)).isOk = true ∧
    (runOps exDb0 exOpsNeg).sessions.map RegistrationSession.availableSlots = [-1] := by
  refine ⟨by decide, by decide, by decide⟩

/-- C4: committed-count never exceeds capacity after any sequence of core
operations from a store satisfying the invariant; the only operation that
increments `currentStudentCount` is approval, guarded by
`currentStudentCount < maxStudents`. -/
theorem sponsor_capacity_invariant (db : DB) (ops : List Op) (h : Inv db) :
    ∀ u ∈ (runOps db ops).users, u.currentStudentCount ≤ u.maxStudents :=
  (inv_runOps db ops h).1

theorem sponsor_capacity_invariant_witness :
    Inv exDb0 ∧
    ∀ u ∈ (runOps exDb0 exOpsNeg).users, u.currentStudentCount ≤ u.maxStudents :=
  ⟨by decide, sponsor_capacity_invariant exDb0 exOpsNeg (by decide)⟩

/-- C5: after any sequence of core operations from a store satisfying the
invariant, every applicant has at most one request in
approved / document_pending / completed status. -/
theorem single_commitment_invariant (db : DB) (ops : List Op) (h : Inv db) (sid : Nat) :
    committedCount (runOps db ops).requests sid ≤ 1 := by
  rcases Nat.eq_zero_or_pos (committedCount (runOps db ops).requests sid) with h0 | hpos
  · omega
  · obtain ⟨q, hq, hp⟩ := List.countP_pos_iff.mp hpos
    simp only [Bool.and_eq_true, beq_iff_eq] at hp
    have := (inv_runOps db ops h).2.1 q hq hp.2
    rw [hp.1] at this
    exact this

theorem single_commitment_invariant_witness :
    Inv exDb0 ∧ committedCount (runOps exDb0 exOpsNeg).requests 2 ≤ 1 :=
  ⟨by decide, single_commitment_invariant exDb0 exOpsNeg (by decide) 2⟩

/-- A session row stored as `closed` whose window contains the present
instant. -/
def exStale : RegistrationSession :=
  { id := 1, professorId := 1, title := "Stale", description := none,
    startDate := 0, endDate := 10, status := .closed, maxSlots := 5, availableSlots := 5 }

/-- A store holding only the stale closed session. -/
def exDb9 : DB := { users := [exP1], sessions := [exStale], requests := [], documents := [] }

/-- C9 counterexample: at time 5 the bulk recompute leaves the stale
session `closed`, while the pure per-offering mapping yields `active`, so
the bulk update and the per-instance recompute are not equivalent. -/
theorem bulk_recompute_not_equiv :
    (updateAllStatuses exDb9 5).sessions.map RegistrationSession.status = [SessionStatus.closed] ∧
    recomputeStatus exStale.startDate exStale.endDate 5 = SessionStatus.active ∧
    (refreshRow exStale 5).status = SessionStatus.active := by
  refine ⟨by decide, by decide, by decide⟩

/-- C9 (amended): the per-instance recompute equals the pure mapping; the
bulk update applies `bulkStep` to every row, which agrees with the pure
mapping for `upcoming` rows (window well-formed), only ever moves `active`
rows to `closed` once the window has passed, and never changes `closed`
rows — even when their window contains the present instant. -/
theorem bulk_recompute_characterization (s : RegistrationSession) (now : Int)
    (hwf : s.startDate ≤ s.endDate) :
    (∀ db, (updateAllStatuses db now).sessions = db.sessions.map (fun t => bulkStep t now)) ∧
    (refreshRow s now).status = recomputeStatus s.startDate s.endDate now ∧
    (s.status = SessionStatus.upcoming →
      (bulkStep s now).status = recomputeStatus s.startDate s.endDate now) ∧
    (s.status = SessionStatus.active →
      (bulkStep s now).status =
        (if s.endDate < now then SessionStatus.closed else SessionStatus.active)) ∧
    (s.status = SessionStatus.closed → (bulkStep s now).status = SessionStatus.closed) := by
  refine ⟨fun db => rfl, rfl, ?_, ?_, ?_⟩
  · intro hup
    unfold bulkStep recomputeStatus
    rw [hup]
    dsimp only
    split_ifs <;> simp_all <;> omega
  · intro hact
    unfold bulkStep
    rw [hact]
    dsimp only
    split_ifs <;> simp_all
  · intro hcl
    unfold bulkStep
    rw [hcl]
    dsimp only
    split_ifs <;> simp_all

theorem bulk_recompute_characterization_witness :
    exStale.startDate ≤ exStale.endDate ∧ (bulkStep exStale 5).status = SessionStatus.closed :=
  ⟨by decide, (bulk_recompute_characterization exStale 5 (by decide)).2.2.2.2 (by decide)⟩



/-- Inclusive-interval intersection, stated from the specification's words:
two windows overlap when neither ends strictly before the other starts
(touching boundaries count). -/
def specOverlap (aStart aEnd bStart bEnd : Int) : Prop :=
  bStart ≤ aEnd ∧ aStart ≤ bEnd

instance (a b c d : Int) : Decidable (specOverlap a b c d) := by
  unfold specOverlap
  infer_instance

/-- The stored `hasOverlap` disjunction coincides with inclusive interval
intersection on well-formed windows. -/
theorem overlapCond_iff_specOverlap (oS oE nS nE : Int) (hwf : oS ≤ oE) (hwf2 : nS ≤ nE) :
    overlapCond oS oE nS nE = true ↔ specOverlap oS oE nS nE := by
  unfold overlapCond specOverlap
  simp only [Bool.or_eq_true, Bool.and_eq_true, decide_eq_true_eq, ge_iff_le]
  omega

/-- C6: creating an offering succeeds exactly when no other offering of
the same sponsor has an inclusively-intersecting window; when one exists,
the handler fails with the overlap error and leaves the store unchanged.
Offerings of other sponsors never trigger the rejection, and touching
boundaries count as overlap. -/
theorem create_session_overlap (db : DB) (now : Int) (caller newId : Nat) (title : String)
    (descr : Option String) (sd ed : Int) (ms : Option Int)
    (htitle : ¬ (title = "")) (hms : ∀ m, ms = some m → 1 ≤ m)
    (hwf : ∀ s ∈ db.sessions, s.startDate ≤ s.endDate)
    (hvalid : sd < ed) (hfresh : ∀ s ∈ db.sessions, s.id ≠ newId) :
    ((createSession db now caller newId title descr sd ed ms).isOk = true ↔
      ¬ ∃ s ∈ db.sessions, s.professorId = caller ∧
        specOverlap s.startDate s.endDate sd ed) ∧
    ((∃ s ∈ db.sessions, s.professorId = caller ∧ specOverlap s.startDate s.endDate sd ed) →
      createSession db now caller newId title descr sd ed ms = .err ApiError.overlap db) := by
  have hover : hasOverlap db none caller sd ed = true ↔
      ∃ s ∈ db.sessions, s.professorId = caller ∧
        specOverlap s.startDate s.endDate sd ed := by
    unfold hasOverlap
    rw [List.any_eq_true]
    constructor
    · rintro ⟨s, hs, hcond⟩
      simp only [Bool.and_eq_true, beq_iff_eq] at hcond
      exact ⟨s, hs, hcond.1.1,
        (overlapCond_iff_specOverlap _ _ _ _ (hwf s hs) (le_of_lt hvalid)).mp hcond.2⟩
    · rintro ⟨s, hs, hprof, hspec⟩
      refine ⟨s, hs, ?_⟩
      simp only [Bool.and_eq_true, beq_iff_eq]
      exact ⟨⟨hprof, trivial⟩,
        (overlapCond_iff_specOverlap _ _ _ _ (hwf s hs) (le_of_lt hvalid)).mpr hspec⟩
  have hval2 : (ms.any fun m => decide (m < 1)) = false := by
    cases ms with
    | none => rfl
    | some m =>
      have h1 := hms m rfl
      simp [Option.any]
      omega
  have hpk : (db.sessions.any fun s => s.id == newId) = false := by
    refine Bool.eq_false_iff.mpr ?_
    intro hany
    obtain ⟨s, hs, hbeq⟩ := List.any_eq_true.mp hany
    exact hfresh s hs (by simpa using hbeq)
  constructor
  · unfold createSession
    rw [if_neg htitle, if_neg (by simp [hval2])]
    dsimp only
    by_cases hov : hasOverlap db none caller sd ed = true
    · rw [if_pos hov]
      constructor
      · intro hfalse
        simp [OpResult.isOk] at hfalse
      · intro hno
        exact absurd (hover.mp hov) hno
    · rw [if_neg hov, if_neg (not_le.mpr hvalid), if_neg (by simp [hpk])]
      constructor
      · intro _ hex
        exact hov (hover.mpr hex)
      · intro _
        rfl
  · intro hex
    unfold createSession
    rw [if_neg htitle, if_neg (by simp [hval2])]
    dsimp only
    rw [if_pos (hover.mpr hex)]

/-- Session and pending requests used to exercise approval. -/
def exSessA : RegistrationSession :=
  { id := 21, professorId := 1, title := "April window", description := none,
    startDate := 0, endDate := 10, status := .active, maxSlots := 5, availableSlots := 5 }

/-- Store with one session of the example professor. -/
def exDb6 : DB := { users := [exP1], sessions := [exSessA], requests := [], documents := [] }

theorem create_session_overlap_witness :
    createSession exDb6 5 1 30 "May window" none 10 20 none = .err ApiError.overlap exDb6 :=
  (create_session_overlap exDb6 5 1 30 "May window" none 10 20 none (by decide)
    (fun m hm => by cases hm) (by decide) (by decide) (by decide)).2
    ⟨exSessA, by decide, by decide, by decide⟩

/-- C1: when an approval succeeds, the one transaction applies exactly the
five writes — request `approved`, the student's accepted-professor
reference set, the professor's committed counter incremented by one, the
session's `availableSlots` decremented by one, and every other pending
request of the same student turned `rejected` with the system-generated
reason — and nothing else (documents and user ids untouched); when the
handler fails, the committed state is the unchanged original store. -/
theorem approve_atomic_effects (db : DB) (caller rid : Nat) (r : CoordinationRequest)
    (hfind : findReq db rid = some r) (hne : r.studentId ≠ r.professorId) :
    (∀ db2, approveRequest db caller rid = .ok db2 →
      findReq db2 rid = some { r with status := ReqStatus.approved } ∧
      findUser db2 r.studentId = (findUser db r.studentId).map
        (fun u => { u with approvedProfessorId := some r.professorId }) ∧
      findUser db2 r.professorId = (findUser db r.professorId).map
        (fun u => { u with currentStudentCount := u.currentStudentCount + 1 }) ∧
      findSession db2 r.sessionId = (findSession db r.sessionId).map
        (fun s => { s with availableSlots := s.availableSlots - 1 }) ∧
      db2.requests = db.requests.map (fun q =>
        if q.id = rid then { q with status := ReqStatus.approved }
        else if q.studentId = r.studentId ∧ q.status = ReqStatus.pending
        then { q with status := ReqStatus.rejected, rejectionReason := some cascadeReason }
        else q) ∧
      db2.documents = db.documents) ∧
    ((approveRequest db caller rid).isOk = false → (approveRequest db caller rid).state = db) := by
  have hrid : r.id = rid := by simpa using List.find?_some hfind
  constructor
  · intro db2 hok
    unfold approveRequest at hok
    rw [hfind] at hok
    dsimp only at hok
    by_cases hprof : r.professorId ≠ caller
    · rw [if_pos hprof] at hok; cases hok
    rw [if_neg hprof] at hok
    by_cases hst : r.status ≠ ReqStatus.pending
    · rw [if_pos hst] at hok; cases hok
    rw [if_neg hst] at hok
    cases hcan : canBeApproved db r with
    | some e => rw [hcan] at hok; cases hok
    | none =>
      rw [hcan] at hok
      dsimp only [updateReqRow, updateUser, updateSessionRow] at hok
      injection hok with hdb2
      subst hdb2
      have hsu_ne : ∀ u : User, u.id = r.studentId → u.id ≠ r.professorId := by
        intro u hu
        rw [hu]
        exact hne
      -- single-map form of the request-side writes
      have hreq : ((db.requests.map (fun q =>
            if q.id = rid then { q with status := ReqStatus.approved } else q)).map (fun q =>
            if q.studentId = r.studentId ∧ q.id ≠ rid ∧ q.status = ReqStatus.pending
            then { q with status := ReqStatus.rejected, rejectionReason := some cascadeReason }
            else q)) = db.requests.map (fun q =>
            if q.id = rid then { q with status := ReqStatus.approved }
            else if q.studentId = r.studentId ∧ q.status = ReqStatus.pending
            then { q with status := ReqStatus.rejected, rejectionReason := some cascadeReason }
            else q) := by
        rw [List.map_map]
        refine List.map_congr_left ?_
        intro q _
        simp only [Function.comp_apply]
        by_cases hq : q.id = rid
        · rw [if_pos hq, if_neg (by simp [hq]), if_pos hq]
        · rw [if_neg hq]
          by_cases hq2 : q.studentId = r.studentId ∧ q.status = ReqStatus.pending
          · rw [if_pos ⟨hq2.1, hq, hq2.2⟩, if_neg hq, if_pos hq2]
          · rw [if_neg (by simp only [not_and] at hq2 ⊢; intro ha hb; exact hq2 ha),
              if_neg hq, if_neg hq2]
      refine ⟨?_, ?_, ?_, ?_, hreq, rfl⟩
      · unfold findReq
        dsimp only
        rw [hreq]
        rw [find?_map_pres _ _ _ ?_]
        · rw [show db.requests.find? (fun q => q.id == rid) = some r from hfind,
            Option.map_some']
          rw [if_pos hrid]
        · intro x
          by_cases hx : x.id = rid
          · rw [if_pos hx]
          · rw [if_neg hx]
            by_cases hx2 : x.studentId = r.studentId ∧ x.status = ReqStatus.pending
            · rw [if_pos hx2]
            · rw [if_neg hx2]
      · unfold findUser
        dsimp only
        rw [find?_map_pres _ _ _ (fun u => by
          by_cases hu : u.id = r.professorId
          · rw [if_pos hu]
          · rw [if_neg hu]),
          find?_map_pres _ _ _ (fun u => by
          by_cases hu : u.id = r.studentId
          · rw [if_pos hu]
          · rw [if_neg hu])]
        cases hsu : db.users.find? (fun u => u.id == r.studentId) with
        | none => rfl
        | some su =>
          have hsu_id : su.id = r.studentId := by simpa using List.find?_some hsu
          simp only [Option.map_some']
          rw [if_pos hsu_id]
          dsimp only
          rw [if_neg (hsu_ne su hsu_id)]
      · unfold findUser
        dsimp only
        rw [find?_map_pres _ _ _ (fun u => by
          by_cases hu : u.id = r.professorId
          · rw [if_pos hu]
          · rw [if_neg hu]),
          find?_map_pres _ _ _ (fun u => by
          by_cases hu : u.id = r.studentId
          · rw [if_pos hu]
          · rw [if_neg hu])]
        cases hpu : db.users.find? (fun u => u.id == r.professorId) with
        | none => rfl
        | some pu =>
          have hpu_id : pu.id = r.professorId := by simpa using List.find?_some hpu
          simp only [Option.map_some']
          rw [if_neg (show ¬ pu.id = r.studentId from fun hx => hne (hx.symm.trans hpu_id))]
          rw [if_pos hpu_id]
      · unfold findSession
        dsimp only
        rw [find?_map_pres _ _ _ (fun t => by
          by_cases ht : t.id = r.sessionId
          · rw [if_pos ht]
          · rw [if_neg ht])]
        cases hs : db.sessions.find? (fun t => t.id == r.sessionId) with
        | none => rfl
        | some t =>
          have ht_id : t.id = r.sessionId := by simpa using List.find?_some hs
          simp only [Option.map_some']
          rw [if_pos ht_id]
  · intro hnotok
    unfold approveRequest at hnotok ⊢
    rw [hfind] at hnotok ⊢
    dsimp only at hnotok ⊢
    by_cases hprof : r.professorId ≠ caller
    · rw [if_pos hprof]
      rfl
    rw [if_neg hprof] at hnotok ⊢
    by_cases hst : r.status ≠ ReqStatus.pending
    · rw [if_pos hst]
      rfl
    rw [if_neg hst] at hnotok ⊢
    cases hcan : canBeApproved db r with
    | some e => rfl
    | none =>
      rw [hcan] at hnotok
      simp [OpResult.isOk] at hnotok

/-- A second professor and a session owned by each professor. -/
def exP4 : User :=
  { id := 4, role := .professor, name := "Prod", approvedProfessorId := none,
    maxStudents := 5, currentStudentCount := 0 }

/-- Session owned by the second professor. -/
def exSessB : RegistrationSession :=
  { id := 22, professorId := 4, title := "June window", description := none,
    startDate := 0, endDate := 10, status := .active, maxSlots := 5, availableSlots := 5 }

/-- Pending request of the example student to the first professor. -/
def exReq10 : CoordinationRequest :=
  { id := 10, studentId := 2, professorId := 1, sessionId := 21,
    dissertationTopic := "Graph colouring", message := none,
    status := .pending, rejectionReason := none }

/-- Second pending request of the same student, to the other professor. -/
def exReq11 : CoordinationRequest :=
  { id := 11, studentId := 2, professorId := 4, sessionId := 22,
    dissertationTopic := "Model checking", message := none,
    status := .pending, rejectionReason := none }

/-- Store with one student holding two pending requests. -/
def exDb1 : DB :=
  { users := [exP1, exP4, exA2], sessions := [exSessA, exSessB],
    requests := [exReq10, exReq11], documents := [] }

theorem approve_atomic_effects_witness :
    approveRequest exDb1 1 10 = OpResult.ok (approveRequest exDb1 1 10).state ∧
    findReq (approveRequest exDb1 1 10).state 10 =
      some { exReq10 with status := ReqStatus.approved } ∧
    (approveRequest exDb1 1 10).state.requests = exDb1.requests.map (fun q =>
      if q.id = 10 then { q with status := ReqStatus.approved }
      else if q.studentId = exReq10.studentId ∧ q.status = ReqStatus.pending
      then { q with status := ReqStatus.rejected, rejectionReason := some cascadeReason }
      else q) :=
  ⟨rfl, ((approve_atomic_effects exDb1 1 10 exReq10 rfl (by decide)).1 _ rfl).1,
    ((approve_atomic_effects exDb1 1 10 exReq10 rfl (by decide)).1 _ rfl).2.2.2.2.1⟩

/-- Capacity-one professor with two pending requests from two students. -/
def exPcap : User :=
  { id := 1, role := .professor, name := "Prof", approvedProfessorId := none,
    maxStudents := 1, currentStudentCount := 0 }

/-- Requests of both students to the capacity-one professor's session. -/
def exReqA : CoordinationRequest :=
  { id := 10, studentId := 2, professorId := 1, sessionId := 21,
    dissertationTopic := "Graph colouring", message := none,
    status := .pending, rejectionReason := none }

/-- Second student's request to the same professor. -/
def exReqB : CoordinationRequest :=
  { id := 11, studentId := 3, professorId := 1, sessionId := 21,
    dissertationTopic := "Model checking", message := none,
    status := .pending, rejectionReason := none }

/-- Store for the capacity scenario. -/
def exDbCap : DB :=
  { users := [exPcap, exA2, exB3], sessions := [exSessA],
    requests := [exReqA, exReqB], documents := [] }

/-- A student already accepted elsewhere, with a still-pending request. -/
def exA2taken : User :=
  { id := 2, role := .student, name := "Ana", approvedProfessorId := some 9,
    maxStudents := 5, currentStudentCount := 0 }

/-- Store in which the requesting student is already committed. -/
def exDbTaken : DB :=
  { users := [exP1, exA2taken], sessions := [exSessA],
    requests := [exReqA], documents := [] }

/-- C3: an approval on a pending request whose re-validated guard fails
surfaces the typed error — the applicant already being accepted gives
`alreadyCommitted`, the sponsor being at capacity gives
`capacityExceeded` — and commits the unchanged store; concretely, a
capacity-1 professor approving the first of two pending requests from
different students succeeds, and the second approval fails with
`capacityExceeded`. -/
theorem approve_guard_failure :
    (∀ db caller rid r s, findReq db rid = some r → r.professorId = caller →
       r.status = ReqStatus.pending → findUser db r.studentId = some s →
       s.approvedProfessorId.isSome = true →
       approveRequest db caller rid = .err ApiError.alreadyCommitted db) ∧
    (∀ db caller rid r s p2, findReq db rid = some r → r.professorId = caller →
       r.status = ReqStatus.pending → findUser db r.studentId = some s →
       s.approvedProfessorId = none → findUser db r.professorId = some p2 →
       p2.maxStudents ≤ p2.currentStudentCount →
       approveRequest db caller rid = .err ApiError.capacityExceeded db) ∧
    ((approveRequest exDbCap 1 10).isOk = true ∧
      approveRequest (approveRequest exDbCap 1 10).state 1 11 =
        .err ApiError.capacityExceeded (approveRequest exDbCap 1 10).state) := by
  refine ⟨?_, ?_, by decide, by decide⟩
  · intro db caller rid r s hfind hcaller hpend hs hsome
    unfold approveRequest
    rw [hfind]
    dsimp only
    rw [if_neg (by rw [hcaller]; exact fun hx => hx rfl), if_neg (by rw [hpend]; exact fun hx => hx rfl)]
    have hcan : canBeApproved db r = some ApiError.alreadyCommitted := by
      unfold canBeApproved
      rw [hs]
      dsimp only
      rw [if_pos hsome]
    rw [hcan]
  · intro db caller rid r s p2 hfind hcaller hpend hs hnone hp2 hcap
    unfold approveRequest
    rw [hfind]
    dsimp only
    rw [if_neg (by rw [hcaller]; exact fun hx => hx rfl), if_neg (by rw [hpend]; exact fun hx => hx rfl)]
    have hcan : canBeApproved db r = some ApiError.capacityExceeded := by
      unfold canBeApproved
      rw [hs]
      dsimp only
      rw [if_neg (by rw [hnone]; simp), hp2]
      dsimp only
      rw [if_pos hcap]
    rw [hcan]

theorem approve_guard_failure_witness :
    approveRequest exDbTaken 1 10 = .err ApiError.alreadyCommitted exDbTaken :=
  approve_guard_failure.1 exDbTaken 1 10 exReqA exA2taken rfl rfl rfl rfl rfl

/-- C7: submission never reserves resources.  With the validations passed,
the caller uncommitted and the session recomputed `active`: if
`availableSlots ≤ 0` the handler fails with the no-slots error having
created no request and changed no counter; on success it appends exactly
one `pending` request and leaves `availableSlots`, every user record
(hence the sponsor's committed counter and the applicant's accepted-by
reference) and the documents unchanged. -/
theorem submit_no_reservation (db : DB) (now : Int) (caller sid nid : Nat) (topic : String)
    (msg : Option String) (u : User) (s : RegistrationSession)
    (htopic : 10 ≤ topic.length ∧ topic.length ≤ 500)
    (hmsg : (msg.any fun m => decide (2000 < m.length)) = false)
    (hu : findUser db caller = some u) (hfree : u.approvedProfessorId = none)
    (hs : findSession db sid = some s)
    (hactive : recomputeStatus s.startDate s.endDate now = SessionStatus.active) :
    (s.availableSlots ≤ 0 →
      ∃ db1, createRequest db now caller sid nid topic msg = .err ApiError.noSlots db1 ∧
        db1.requests = db.requests ∧ db1.users = db.users ∧ db1.documents = db.documents ∧
        (findSession db1 sid).map RegistrationSession.availableSlots =
          some s.availableSlots) ∧
    (∀ db2, createRequest db now caller sid nid topic msg = .ok db2 →
      db2.requests = db.requests ++
        [{ id := nid, studentId := caller, professorId := s.professorId, sessionId := sid,
           dissertationTopic := topic, message := msg, status := ReqStatus.pending,
           rejectionReason := none }] ∧
      db2.users = db.users ∧ db2.documents = db.documents ∧
      (findSession db2 sid).map RegistrationSession.availableSlots =
        some s.availableSlots) := by
  have hsid : s.id = sid := by simpa using List.find?_some hs
  have hfind1 : findSession (updateSessionRow db sid (fun _ => refreshRow s now)) sid =
      some (refreshRow s now) := by
    unfold findSession updateSessionRow
    dsimp only
    rw [find?_map_pres _ _ _ (fun t => by
      by_cases ht : t.id = sid
      · rw [if_pos ht]
        dsimp only [refreshRow]
        simp [hsid, ht]
      · rw [if_neg ht]),
      show db.sessions.find? (fun t => t.id == sid) = some s from hs]
    rw [Option.map_some', if_pos hsid]
  constructor
  · intro hslots
    unfold createRequest
    rw [if_neg (not_not_intro htopic), if_neg (by simp [hmsg]), hu]
    dsimp only
    rw [if_neg (by simp [hfree]), hs]
    dsimp only
    rw [if_neg (show ¬ (refreshRow s now).status ≠ SessionStatus.active from by
          simp [refreshRow, hactive]),
        if_pos (show (refreshRow s now).availableSlots ≤ 0 from hslots)]
    refine ⟨_, rfl, rfl, rfl, rfl, ?_⟩
    rw [hfind1]
    rfl
  · intro db2 hok
    unfold createRequest at hok
    rw [if_neg (not_not_intro htopic), if_neg (by simp [hmsg]), hu] at hok
    dsimp only at hok
    rw [if_neg (by simp [hfree]), hs] at hok
    dsimp only at hok
    rw [if_neg (show ¬ (refreshRow s now).status ≠ SessionStatus.active from by
          simp [refreshRow, hactive])] at hok
    by_cases hsl : (refreshRow s now).availableSlots ≤ 0
    · rw [if_pos hsl] at hok
      cases hok
    rw [if_neg hsl] at hok
    by_cases hdup : ((updateSessionRow db sid (fun _ => refreshRow s now)).requests.any
        fun r => r.studentId == caller && r.sessionId == sid) = true
    · rw [if_pos hdup] at hok
      cases hok
    rw [if_neg hdup] at hok
    by_cases hpk : ((updateSessionRow db sid (fun _ => refreshRow s now)).requests.any
        fun r => r.id == nid) = true
    · rw [if_pos hpk] at hok
      cases hok
    rw [if_neg hpk] at hok
    injection hok with hdb2
    subst hdb2
    refine ⟨rfl, rfl, rfl, ?_⟩
    have : findSession { updateSessionRow db sid (fun _ => refreshRow s now) with
        requests := (updateSessionRow db sid (fun _ => refreshRow s now)).requests ++
          [{ id := nid, studentId := caller, professorId := (refreshRow s now).professorId,
             sessionId := sid, dissertationTopic := topic, message := msg,
             status := ReqStatus.pending, rejectionReason := none }] } sid =
        findSession (updateSessionRow db sid (fun _ => refreshRow s now)) sid := rfl
    rw [this, hfind1]
    rfl

/-- A by-key row update is transparent to request lookups. -/
theorem findReq_updateReqRow (db : DB) (rid : Nat)
    (f : CoordinationRequest → CoordinationRequest)
    (hf : ∀ x, (f x).id = x.id) (k : Nat) :
    findReq (updateReqRow db rid f) k =
      (findReq db k).map (fun q => if q.id = rid then f q else q) := by
  unfold findReq updateReqRow
  dsimp only
  refine find?_map_pres _ _ _ ?_
  intro x
  by_cases hx : x.id = rid
  · rw [if_pos hx, hf x]
  · rw [if_neg hx]

/-- A by-key row update is transparent to document lookups. -/
theorem findDoc_updateDocRow (db : DB) (did : Nat) (f : Document → Document)
    (hf : ∀ x, (f x).id = x.id) (k : Nat) :
    findDoc (updateDocRow db did f) k =
      (findDoc db k).map (fun x => if x.id = did then f x else x) := by
  unfold findDoc updateDocRow
  dsimp only
  refine find?_map_pres _ _ _ ?_
  intro x
  by_cases hx : x.id = did
  · rw [if_pos hx, hf x]
  · rw [if_neg hx]

/-- C8: round-trip of the document review sub-workflow.  Rejecting a
pending-review artifact atomically marks it rejected and reverts the
owning request to `approved`; a fresh applicant upload then returns the
request to `document_pending` with a new pending-review artifact, and
accepting that artifact ends with the artifact `accepted` and the request
`completed`. -/
theorem document_review_roundtrip (db : DB) (caller did did2 : Nat) (reason fname : String)
    (d : Document) (r : CoordinationRequest) (su : User)
    (hd : findDoc db did = some d) (hdst : d.status = DocStatus.pending_review)
    (hr : findReq db d.requestId = some r) (hrst : r.status = ReqStatus.document_pending)
    (hcaller : r.professorId = caller) (hreason : ¬ (isBlank reason = true))
    (hsu : findUser db r.studentId = some su) (hne : r.studentId ≠ r.professorId)
    (hfresh : ∀ d0 ∈ db.documents, d0.id ≠ did2) :
    ∃ db1, rejectDocument db caller did reason = .ok db1 ∧
      (findDoc db1 did).map Document.status = some DocStatus.rejected ∧
      findReq db1 d.requestId = some { r with status := ReqStatus.approved } ∧
      ∃ db2, uploadDocument db1 r.studentId d.requestId did2 fname = .ok db2 ∧
        (findReq db2 d.requestId).map CoordinationRequest.status =
          some ReqStatus.document_pending ∧
        (findDoc db2 did2).map Document.status = some DocStatus.pending_review ∧
        ∃ db3, acceptDocument db2 caller did2 = .ok db3 ∧
          (findDoc db3 did2).map Document.status = some DocStatus.accepted ∧
          (findReq db3 d.requestId).map CoordinationRequest.status =
            some ReqStatus.completed := by
  have hdid : d.id = did := by simpa using List.find?_some hd
  have hrid : r.id = d.requestId := by simpa using List.find?_some hr
  have hstep1 : rejectDocument db caller did reason = .ok (updateReqRow (updateDocRow db did (fun x => { x with status := DocStatus.rejected, rejectionReason := some reason })) d.requestId (fun q => { q with status := ReqStatus.approved })) := by
    unfold rejectDocument
    rw [if_neg hreason, hd]
    dsimp only
    rw [hr]
    dsimp only
    rw [if_neg (by rw [hcaller]; exact fun hx => hx rfl),
      if_neg (by rw [hdst]; exact fun hx => hx rfl)]
  have hdoc1 : findDoc (updateReqRow (updateDocRow db did (fun x => { x with status := DocStatus.rejected, rejectionReason := some reason })) d.requestId (fun q => { q with status := ReqStatus.approved })) did =
      some { d with status := DocStatus.rejected, rejectionReason := some reason } := by
    have e1 : findDoc (updateReqRow (updateDocRow db did (fun x => { x with status := DocStatus.rejected, rejectionReason := some reason })) d.requestId (fun q => { q with status := ReqStatus.approved })) did = findDoc (updateDocRow db did (fun x => { x with status := DocStatus.rejected, rejectionReason := some reason })) did := rfl
    rw [e1, findDoc_updateDocRow db did (fun x => { x with status := DocStatus.rejected, rejectionReason := some reason }) (fun x => rfl) did, hd, Option.map_some', if_pos hdid]
  have hreq1 : findReq (updateReqRow (updateDocRow db did (fun x => { x with status := DocStatus.rejected, rejectionReason := some reason })) d.requestId (fun q => { q with status := ReqStatus.approved })) d.requestId =
      some { r with status := ReqStatus.approved } := by
    rw [findReq_updateReqRow (updateDocRow db did (fun x => { x with status := DocStatus.rejected, rejectionReason := some reason })) d.requestId (fun q => { q with status := ReqStatus.approved }) (fun x => rfl) d.requestId]
    have e1 : findReq (updateDocRow db did (fun x => { x with status := DocStatus.rejected, rejectionReason := some reason })) d.requestId = findReq db d.requestId := rfl
    rw [e1, hr, Option.map_some', if_pos hrid]
  have hnone2 : ∀ x ∈ (updateReqRow (updateDocRow db did (fun x => { x with status := DocStatus.rejected, rejectionReason := some reason })) d.requestId (fun q => { q with status := ReqStatus.approved })).documents, ¬ ((fun d0 => d0.id == did2) x = true) := by
    intro x hx
    obtain ⟨x0, hx0, rfl⟩ := List.mem_map.mp hx
    intro hbeq
    refine hfresh x0 hx0 ?_
    by_cases h0 : x0.id = did <;> simpa [h0] using hbeq
  have hpk2 : ((updateReqRow (updateDocRow db did (fun x => { x with status := DocStatus.rejected, rejectionReason := some reason })) d.requestId (fun q => { q with status := ReqStatus.approved })).documents.any (fun d0 => d0.id == did2)) = false := by
    refine Bool.eq_false_iff.mpr ?_
    intro hany
    obtain ⟨x, hx, hbeq⟩ := List.any_eq_true.mp hany
    exact hnone2 x hx hbeq
  have hstep2 : uploadDocument (updateReqRow (updateDocRow db did (fun x => { x with status := DocStatus.rejected, rejectionReason := some reason })) d.requestId (fun q => { q with status := ReqStatus.approved })) r.studentId d.requestId did2 fname = .ok (updateReqRow { (updateReqRow (updateDocRow db did (fun x => { x with status := DocStatus.rejected, rejectionReason := some reason })) d.requestId (fun q => { q with status := ReqStatus.approved })) with documents := (updateReqRow (updateDocRow db did (fun x => { x with status := DocStatus.rejected, rejectionReason := some reason })) d.requestId (fun q => { q with status := ReqStatus.approved })).documents ++ [{ id := did2, requestId := d.requestId, uploadedBy := r.studentId, uploaderRole := su.role, fileName := fname, status := DocStatus.pending_review, rejectionReason := none }] } d.requestId (fun q => { q with status := ReqStatus.document_pending })) := by
    unfold uploadDocument
    rw [show findUser (updateReqRow (updateDocRow db did (fun x => { x with status := DocStatus.rejected, rejectionReason := some reason })) d.requestId (fun q => { q with status := ReqStatus.approved })) r.studentId = some su from hsu]
    dsimp only
    rw [hreq1]
    dsimp only
    rw [if_neg (fun hx => hx.1 rfl), if_neg (fun hx => hx.2 rfl),
      if_neg (fun hx => hne hx.1.symm), if_neg (by simp [hpk2]), if_pos rfl]
  have hreq2 : findReq (updateReqRow { (updateReqRow (updateDocRow db did (fun x => { x with status := DocStatus.rejected, rejectionReason := some reason })) d.requestId (fun q => { q with status := ReqStatus.approved })) with documents := (updateReqRow (updateDocRow db did (fun x => { x with status := DocStatus.rejected, rejectionReason := some reason })) d.requestId (fun q => { q with status := ReqStatus.approved })).documents ++ [{ id := did2, requestId := d.requestId, uploadedBy := r.studentId, uploaderRole := su.role, fileName := fname, status := DocStatus.pending_review, rejectionReason := none }] } d.requestId (fun q => { q with status := ReqStatus.document_pending })) d.requestId =
      some { r with status := ReqStatus.document_pending } := by
    rw [findReq_updateReqRow { (updateReqRow (updateDocRow db did (fun x => { x with status := DocStatus.rejected, rejectionReason := some reason })) d.requestId (fun q => { q with status := ReqStatus.approved })) with documents := (updateReqRow (updateDocRow db did (fun x => { x with status := DocStatus.rejected, rejectionReason := some reason })) d.requestId (fun q => { q with status := ReqStatus.approved })).documents ++ [{ id := did2, requestId := d.requestId, uploadedBy := r.studentId, uploaderRole := su.role, fileName := fname, status := DocStatus.pending_review, rejectionReason := none }] } d.requestId (fun q => { q with status := ReqStatus.document_pending }) (fun x => rfl) d.requestId]
    have e1 : findReq { (updateReqRow (updateDocRow db did (fun x => { x with status := DocStatus.rejected, rejectionReason := some reason })) d.requestId (fun q => { q with status := ReqStatus.approved })) with documents := (updateReqRow (updateDocRow db did (fun x => { x with status := DocStatus.rejected, rejectionReason := some reason })) d.requestId (fun q => { q with status := ReqStatus.approved })).documents ++ [{ id := did2, requestId := d.requestId, uploadedBy := r.studentId, uploaderRole := su.role, fileName := fname, status := DocStatus.pending_review, rejectionReason := none }] } d.requestId = findReq (updateReqRow (updateDocRow db did (fun x => { x with status := DocStatus.rejected, rejectionReason := some reason })) d.requestId (fun q => { q with status := ReqStatus.approved })) d.requestId := rfl
    rw [e1, hreq1, Option.map_some', if_pos hrid]
  have hdoc2 : findDoc (updateReqRow { (updateReqRow (updateDocRow db did (fun x => { x with status := DocStatus.rejected, rejectionReason := some reason })) d.requestId (fun q => { q with status := ReqStatus.approved })) with documents := (updateReqRow (updateDocRow db did (fun x => { x with status := DocStatus.rejected, rejectionReason := some reason })) d.requestId (fun q => { q with status := ReqStatus.approved })).documents ++ [{ id := did2, requestId := d.requestId, uploadedBy := r.studentId, uploaderRole := su.role, fileName := fname, status := DocStatus.pending_review, rejectionReason := none }] } d.requestId (fun q => { q with status := ReqStatus.document_pending })) did2 = some { id := did2, requestId := d.requestId, uploadedBy := r.studentId, uploaderRole := su.role, fileName := fname, status := DocStatus.pending_review, rejectionReason := none } := by
    have e1 : findDoc (updateReqRow { (updateReqRow (updateDocRow db did (fun x => { x with status := DocStatus.rejected, rejectionReason := some reason })) d.requestId (fun q => { q with status := ReqStatus.approved })) with documents := (updateReqRow (updateDocRow db did (fun x => { x with status := DocStatus.rejected, rejectionReason := some reason })) d.requestId (fun q => { q with status := ReqStatus.approved })).documents ++ [{ id := did2, requestId := d.requestId, uploadedBy := r.studentId, uploaderRole := su.role, fileName := fname, status := DocStatus.pending_review, rejectionReason := none }] } d.requestId (fun q => { q with status := ReqStatus.document_pending })) did2 = findDoc { (updateReqRow (updateDocRow db did (fun x => { x with status := DocStatus.rejected, rejectionReason := some reason })) d.requestId (fun q => { q with status := ReqStatus.approved })) with documents := (updateReqRow (updateDocRow db did (fun x => { x with status := DocStatus.rejected, rejectionReason := some reason })) d.requestId (fun q => { q with status := ReqStatus.approved })).documents ++ [{ id := did2, requestId := d.requestId, uploadedBy := r.studentId, uploaderRole := su.role, fileName := fname, status := DocStatus.pending_review, rejectionReason := none }] } did2 := rfl
    rw [e1]
    unfold findDoc
    dsimp only
    rw [List.find?_append, List.find?_eq_none.mpr hnone2]
    simp [List.find?]
  have hstep3 : acceptDocument (updateReqRow { (updateReqRow (updateDocRow db did (fun x => { x with status := DocStatus.rejected, rejectionReason := some reason })) d.requestId (fun q => { q with status := ReqStatus.approved })) with documents := (updateReqRow (updateDocRow db did (fun x => { x with status := DocStatus.rejected, rejectionReason := some reason })) d.requestId (fun q => { q with status := ReqStatus.approved })).documents ++ [{ id := did2, requestId := d.requestId, uploadedBy := r.studentId, uploaderRole := su.role, fileName := fname, status := DocStatus.pending_review, rejectionReason := none }] } d.requestId (fun q => { q with status := ReqStatus.document_pending })) caller did2 = .ok (updateReqRow (updateDocRow (updateReqRow { (updateReqRow (updateDocRow db did (fun x => { x with status := DocStatus.rejected, rejectionReason := some reason })) d.requestId (fun q => { q with status := ReqStatus.approved })) with documents := (updateReqRow (updateDocRow db did (fun x => { x with status := DocStatus.rejected, rejectionReason := some reason })) d.requestId (fun q => { q with status := ReqStatus.approved })).documents ++ [{ id := did2, requestId := d.requestId, uploadedBy := r.studentId, uploaderRole := su.role, fileName := fname, status := DocStatus.pending_review, rejectionReason := none }] } d.requestId (fun q => { q with status := ReqStatus.document_pending })) did2 (fun x => { x with status := DocStatus.accepted })) d.requestId (fun q => { q with status := ReqStatus.completed })) := by
    unfold acceptDocument
    rw [hdoc2]
    dsimp only
    rw [hreq2]
    dsimp only
    rw [if_neg (by rw [hcaller]; exact fun hx => hx rfl), if_neg (fun hx => hx rfl)]
  have hdoc3 : findDoc (updateReqRow (updateDocRow (updateReqRow { (updateReqRow (updateDocRow db did (fun x => { x with status := DocStatus.rejected, rejectionReason := some reason })) d.requestId (fun q => { q with status := ReqStatus.approved })) with documents := (updateReqRow (updateDocRow db did (fun x => { x with status := DocStatus.rejected, rejectionReason := some reason })) d.requestId (fun q => { q with status := ReqStatus.approved })).documents ++ [{ id := did2, requestId := d.requestId, uploadedBy := r.studentId, uploaderRole := su.role, fileName := fname, status := DocStatus.pending_review, rejectionReason := none }] } d.requestId (fun q => { q with status := ReqStatus.document_pending })) did2 (fun x => { x with status := DocStatus.accepted })) d.requestId (fun q => { q with status := ReqStatus.completed })) did2 =
      some { id := did2, requestId := d.requestId, uploadedBy := r.studentId, uploaderRole := su.role, fileName := fname, status := DocStatus.accepted, rejectionReason := none } := by
    have e1 : findDoc (updateReqRow (updateDocRow (updateReqRow { (updateReqRow (updateDocRow db did (fun x => { x with status := DocStatus.rejected, rejectionReason := some reason })) d.requestId (fun q => { q with status := ReqStatus.approved })) with documents := (updateReqRow (updateDocRow db did (fun x => { x with status := DocStatus.rejected, rejectionReason := some reason })) d.requestId (fun q => { q with status := ReqStatus.approved })).documents ++ [{ id := did2, requestId := d.requestId, uploadedBy := r.studentId, uploaderRole := su.role, fileName := fname, status := DocStatus.pending_review, rejectionReason := none }] } d.requestId (fun q => { q with status := ReqStatus.document_pending })) did2 (fun x => { x with status := DocStatus.accepted })) d.requestId (fun q => { q with status := ReqStatus.completed })) did2 = findDoc (updateDocRow (updateReqRow { (updateReqRow (updateDocRow db did (fun x => { x with status := DocStatus.rejected, rejectionReason := some reason })) d.requestId (fun q => { q with status := ReqStatus.approved })) with documents := (updateReqRow (updateDocRow db did (fun x => { x with status := DocStatus.rejected, rejectionReason := some reason })) d.requestId (fun q => { q with status := ReqStatus.approved })).documents ++ [{ id := did2, requestId := d.requestId, uploadedBy := r.studentId, uploaderRole := su.role, fileName := fname, status := DocStatus.pending_review, rejectionReason := none }] } d.requestId (fun q => { q with status := ReqStatus.document_pending })) did2 (fun x => { x with status := DocStatus.accepted })) did2 := rfl
    rw [e1, findDoc_updateDocRow (updateReqRow { (updateReqRow (updateDocRow db did (fun x => { x with status := DocStatus.rejected, rejectionReason := some reason })) d.requestId (fun q => { q with status := ReqStatus.approved })) with documents := (updateReqRow (updateDocRow db did (fun x => { x with status := DocStatus.rejected, rejectionReason := some reason })) d.requestId (fun q => { q with status := ReqStatus.approved })).documents ++ [{ id := did2, requestId := d.requestId, uploadedBy := r.studentId, uploaderRole := su.role, fileName := fname, status := DocStatus.pending_review, rejectionReason := none }] } d.requestId (fun q => { q with status := ReqStatus.document_pending })) did2 (fun x => { x with status := DocStatus.accepted }) (fun x => rfl) did2, hdoc2, Option.map_some', if_pos rfl]
  have hreq3 : findReq (updateReqRow (updateDocRow (updateReqRow { (updateReqRow (updateDocRow db did (fun x => { x with status := DocStatus.rejected, rejectionReason := some reason })) d.requestId (fun q => { q with status := ReqStatus.approved })) with documents := (updateReqRow (updateDocRow db did (fun x => { x with status := DocStatus.rejected, rejectionReason := some reason })) d.requestId (fun q => { q with status := ReqStatus.approved })).documents ++ [{ id := did2, requestId := d.requestId, uploadedBy := r.studentId, uploaderRole := su.role, fileName := fname, status := DocStatus.pending_review, rejectionReason := none }] } d.requestId (fun q => { q with status := ReqStatus.document_pending })) did2 (fun x => { x with status := DocStatus.accepted })) d.requestId (fun q => { q with status := ReqStatus.completed })) d.requestId =
      some { r with status := ReqStatus.completed } := by
    rw [findReq_updateReqRow (updateDocRow (updateReqRow { (updateReqRow (updateDocRow db did (fun x => { x with status := DocStatus.rejected, rejectionReason := some reason })) d.requestId (fun q => { q with status := ReqStatus.approved })) with documents := (updateReqRow (updateDocRow db did (fun x => { x with status := DocStatus.rejected, rejectionReason := some reason })) d.requestId (fun q => { q with status := ReqStatus.approved })).documents ++ [{ id := did2, requestId := d.requestId, uploadedBy := r.studentId, uploaderRole := su.role, fileName := fname, status := DocStatus.pending_review, rejectionReason := none }] } d.requestId (fun q => { q with status := ReqStatus.document_pending })) did2 (fun x => { x with status := DocStatus.accepted })) d.requestId (fun q => { q with status := ReqStatus.completed }) (fun x => rfl) d.requestId]
    have e1 : findReq (updateDocRow (updateReqRow { (updateReqRow (updateDocRow db did (fun x => { x with status := DocStatus.rejected, rejectionReason := some reason })) d.requestId (fun q => { q with status := ReqStatus.approved })) with documents := (updateReqRow (updateDocRow db did (fun x => { x with status := DocStatus.rejected, rejectionReason := some reason })) d.requestId (fun q => { q with status := ReqStatus.approved })).documents ++ [{ id := did2, requestId := d.requestId, uploadedBy := r.studentId, uploaderRole := su.role, fileName := fname, status := DocStatus.pending_review, rejectionReason := none }] } d.requestId (fun q => { q with status := ReqStatus.document_pending })) did2 (fun x => { x with status := DocStatus.accepted })) d.requestId =
        findReq (updateReqRow { (updateReqRow (updateDocRow db did (fun x => { x with status := DocStatus.rejected, rejectionReason := some reason })) d.requestId (fun q => { q with status := ReqStatus.approved })) with documents := (updateReqRow (updateDocRow db did (fun x => { x with status := DocStatus.rejected, rejectionReason := some reason })) d.requestId (fun q => { q with status := ReqStatus.approved })).documents ++ [{ id := did2, requestId := d.requestId, uploadedBy := r.studentId, uploaderRole := su.role, fileName := fname, status := DocStatus.pending_review, rejectionReason := none }] } d.requestId (fun q => { q with status := ReqStatus.document_pending })) d.requestId := rfl
    rw [e1, hreq2, Option.map_some', if_pos hrid]
  exact ⟨_, hstep1, by rw [hdoc1]; rfl, hreq1,
    _, hstep2, by rw [hreq2]; rfl, by rw [hdoc2]; rfl,
    _, hstep3, by rw [hdoc3]; rfl, by rw [hreq3]; rfl⟩

/-- Request of the example student in the document-review stage. -/
def exReqDP : CoordinationRequest :=
  { id := 10, studentId := 2, professorId := 1, sessionId := 21,
    dissertationTopic := "Graph colouring", message := none,
    status := .document_pending, rejectionReason := none }

/-- The student's uploaded artifact, awaiting review. -/
def exDoc100 : Document :=
  { id := 100, requestId := 10, uploadedBy := 2, uploaderRole := .student,
    fileName := "thesis.pdf", status := .pending_review, rejectionReason := none }

/-- Store in the document-review stage. -/
def exDb8 : DB :=
  { users := [exP1, exA2], sessions := [exSessA],
    requests := [exReqDP], documents := [exDoc100] }

theorem document_review_roundtrip_witness :
    (rejectDocument exDb8 1 100 "resign").isOk = true ∧
    (findReq (rejectDocument exDb8 1 100 "resign").state 10).map CoordinationRequest.status =
      some ReqStatus.approved := by
  obtain ⟨db1, h1, hdoc, hreq, -⟩ :=
    document_review_roundtrip exDb8 1 100 101 "resign" "new.pdf" exDoc100 exReqDP exA2
      rfl rfl rfl rfl rfl (by decide) rfl (by decide) (by decide)
  have hreq10 : findReq db1 10 = some { exReqDP with status := ReqStatus.approved } := hreq
  rw [h1]
  refine ⟨rfl, ?_⟩
  dsimp only [OpResult.state]
  rw [hreq10]
  rfl

/-- Operations that reach a state where the request is back to `approved`
while the professor's counter-document is still `pending_review`. -/
def exOps10 : List Op :=
  [ .createSession 50 1 20 "Thesis window" none 0 100 (some 5)
  , .submit 50 2 20 10 "topic long enough" none
  , .approve 1 10
  , .upload 2 10 100 "thesis.pdf"
  , .upload 1 10 101 "annotated.pdf"
  , .rejectDoc 1 100 "please fix" ]

/-- C10 (implicit): document acceptance inspects only the artifact's own
status and the caller, never the owning request's status, and it sets the
owning request to `completed` unconditionally; in particular, from the
reachable state where the request has been reverted to `approved` while
the sponsor's counter-document is still `pending_review`, accepting the
counter-document moves the request from `approved` straight to
`completed`. -/
theorem accept_ignores_request_state :
    (∀ db caller did d r, findDoc db did = some d → findReq db d.requestId = some r →
      r.professorId = caller → d.status = DocStatus.pending_review →
      ∃ db2, acceptDocument db caller did = .ok db2 ∧
        (findDoc db2 did).map Document.status = some DocStatus.accepted ∧
        findReq db2 d.requestId = some { r with status := ReqStatus.completed }) ∧
    ((findReq (runOps exDb0 exOps10) 10).map CoordinationRequest.status =
        some ReqStatus.approved ∧
      (findDoc (runOps exDb0 exOps10) 101).map Document.status =
        some DocStatus.pending_review ∧
      (findReq (runOps exDb0 (exOps10 ++ [Op.acceptDoc 1 101])) 10).map
        CoordinationRequest.status = some ReqStatus.completed) := by
  constructor
  · intro db caller did d r hd hr hcaller hdst
    have hdid : d.id = did := by simpa using List.find?_some hd
    have hrid : r.id = d.requestId := by simpa using List.find?_some hr
    have hstep : acceptDocument db caller did = .ok (updateReqRow (updateDocRow db did
        (fun x => { x with status := DocStatus.accepted })) d.requestId
        (fun q => { q with status := ReqStatus.completed })) := by
      unfold acceptDocument
      rw [hd]
      dsimp only
      rw [hr]
      dsimp only
      rw [if_neg (by rw [hcaller]; exact fun hx => hx rfl),
        if_neg (by rw [hdst]; exact fun hx => hx rfl)]
    refine ⟨_, hstep, ?_, ?_⟩
    · have e1 : findDoc (updateReqRow (updateDocRow db did
          (fun x => { x with status := DocStatus.accepted })) d.requestId
          (fun q => { q with status := ReqStatus.completed })) did =
          findDoc (updateDocRow db did
          (fun x => { x with status := DocStatus.accepted })) did := rfl
      rw [e1, findDoc_updateDocRow db did
        (fun x => { x with status := DocStatus.accepted }) (fun x => rfl) did,
        hd, Option.map_some', if_pos hdid]
      rfl
    · rw [findReq_updateReqRow (updateDocRow db did
        (fun x => { x with status := DocStatus.accepted })) d.requestId
        (fun q => { q with status := ReqStatus.completed }) (fun x => rfl) d.requestId]
      have e1 : findReq (updateDocRow db did
          (fun x => { x with status := DocStatus.accepted })) d.requestId =
          findReq db d.requestId := rfl
      rw [e1, hr, Option.map_some', if_pos hrid]
  · refine ⟨by decide, by decide, by decide⟩

theorem accept_ignores_request_state_witness :
    (acceptDocument (runOps exDb0 exOps10) 1 101).isOk = true ∧
    (findReq (acceptDocument (runOps exDb0 exOps10) 1 101).state 10).map
      CoordinationRequest.status = some ReqStatus.completed := by
  obtain ⟨db2, hok, hdoc, hreq⟩ :=
    accept_ignores_request_state.1 (runOps exDb0 exOps10) 1 101
      { id := 101, requestId := 10, uploadedBy := 1, uploaderRole := .professor,
        fileName := "annotated.pdf", status := .pending_review, rejectionReason := none }
      { id := 10, studentId := 2, professorId := 1, sessionId := 20,
        dissertationTopic := "topic long enough", message := none,
        status := .approved, rejectionReason := none }
      (by decide) (by decide) rfl rfl
  have hreq10 : findReq db2 10 = some { id := 10, studentId := 2, professorId := 1, sessionId := 20, dissertationTopic := "topic long enough", message := none, status := ReqStatus.completed, rejectionReason := none } := hreq
  rw [hok]
  refine ⟨rfl, ?_⟩
  dsimp only [OpResult.state]
  rw [hreq10]
  rfl

/-- A session with no available slots left. -/
def exSessFull : RegistrationSession :=
  { id := 23, professorId := 1, title := "Full window", description := none,
    startDate := 0, endDate := 10, status := .active, maxSlots := 1, availableSlots := 0 }

/-- Store with a slot-exhausted session. -/
def exDbFull : DB :=
  { users := [exP1, exA2], sessions := [exSessFull], requests := [], documents := [] }

theorem submit_no_reservation_witness :
    (createRequest exDbFull 5 2 23 40 "Graph colouring" none).isOk = false ∧
    (createRequest exDbFull 5 2 23 40 "Graph colouring" none).state.requests = [] := by
  obtain ⟨db1, heq, hreqs, -, -, -⟩ :=
    (submit_no_reservation exDbFull 5 2 23 40 "Graph colouring" none exA2 exSessFull
      (by decide) (by decide) rfl rfl rfl (by decide)).1 (by decide)
  rw [heq]
  exact ⟨rfl, hreqs⟩

end DissReg
